import Mathlib

/-!
The go-production-level service: user service, repository and route table

A shallow embedding of the user-management service:

* `models.User`, `models.UserResponse` (internal/models/user.go);
* `UserRepositoryImpl` over the `Repository` interface (internal/repository), with the
  behaviour of the gorm handle it wraps written out as functions on an in-memory table;
* `UserServiceImpl` (internal/services/user_service.go) as state-passing functions on a
  `World` holding the database, the redis keyspace, a clock and the log of calls made;
* the route table built by `main` and the controllers' `Register` methods.

Go `error` results are `Option Error` (`none` is `nil`); `(value, error)` results are
`Except Error value`.  Times are unix nanoseconds, `0` standing for the zero `time.Time`.
-/

namespace GoProductionLevel

/-! ## Data model -/

/-- The record `models.User`; `DeletedAt` is the soft-deletion marker (`gorm.DeletedAt`). -/
structure User where
  ID : Nat
  CreatedAt : Nat
  UpdatedAt : Nat
  DeletedAt : Option Nat
  Email : String
  Password : String
  Name : String
  Role : String
deriving DecidableEq, Repr

/-- The record `models.UserResponse`: the public view, without the password. -/
structure UserResponse where
  ID : Nat
  CreatedAt : Nat
  Email : String
  Name : String
  Role : String
deriving DecidableEq, Repr

/-- Go error values.  The first three are the sentinels declared in package `services`;
`ErrRecordNotFound` is gorm's sentinel; `pgUniqueViolation c` is the Postgres driver's
error for SQLSTATE 23505 on constraint `c`; `other` is any further failure (connection
loss, bcrypt, token signing, redis). -/
inductive Error where
  | ErrUserNotFound
  | ErrInvalidCredentials
  | ErrEmailExists
  | ErrRecordNotFound
  | pgUniqueViolation (constraint : String)
  | other (msg : String)
deriving DecidableEq, Repr

deriving instance DecidableEq for Except

/-- The duration `time.Hour`, in nanoseconds. -/
def Hour : Nat := 3600 * 1000000000

/-! ## Go string conversions used for cache keys -/

/-- The Go conversion `string(n)` of an integer: the UTF-8 text of the single code point
`n`, or of U+FFFD when `n` is not a valid code point. -/
def goStringOfInt (n : Nat) : String :=
  if n.isValidChar then String.singleton (Char.ofNat n) else String.singleton (Char.ofNat 0xFFFD)

/-- The verb `%d` of `fmt.Sprintf` on an unsigned integer: its decimal digits. -/
def sprintfD (n : Nat) : String := Nat.repr n

/-- The call `strconv.FormatUint(n, 10)`: the digits of `n` in base ten. -/
def FormatUint10 (n : Nat) : String := String.mk (Nat.toDigits 10 n)

/-- The cache key of `UserServiceImpl.GetByID`: `fmt.Sprintf("user:%d", id)`. -/
def getByIDCacheKey (id : Nat) : String := "user:" ++ sprintfD id

/-- The cache key of `UserServiceImpl.Update`:
`"user:" + strconv.FormatUint(uint64(user.ID), 10)`. -/
def updateCacheKey (id : Nat) : String := "user:" ++ FormatUint10 id

/-- The cache key of `UserServiceImpl.Delete`: `"user:" + string(id)`. -/
def deleteCacheKey (id : Nat) : String := "user:" ++ goStringOfInt id

/-! ## The database handle (`*gorm.DB` over Postgres, table `users`)

`models.User` carries `gorm:"primarykey"` on `ID`, `gorm:"uniqueIndex;not null"` on
`Email` and a `gorm.DeletedAt` column, so queries, updates and deletes issued through the
handle are scoped to rows whose `deleted_at` is null, deletes are soft, and the two unique
indexes (`users_pkey`, `idx_users_email`) range over every physical row. -/

/-- The table `users` with its id sequence; `fault` is set while the connection is
broken, in which case every statement fails with that message. -/
structure DB where
  rows : List User
  seq : Nat
  fault : Option String
deriving DecidableEq, Repr

/-- The row with the least `ID` in a list (`ORDER BY id LIMIT 1`). -/
def firstByID : List User → Option User
  | [] => none
  | u :: us =>
    match firstByID us with
    | none => some u
    | some v => if u.ID ≤ v.ID then some u else some v

/-- The query `First(&user, conds)`: the first non-deleted row matching `cond` in
primary-key order, or `gorm.ErrRecordNotFound`. -/
def gormFirst (db : DB) (cond : User → Bool) : Except Error User :=
  match db.fault with
  | some m => .error (.other m)
  | none =>
    match firstByID (db.rows.filter (fun r => r.DeletedAt.isNone && cond r)) with
    | none => .error .ErrRecordNotFound
    | some u => .ok u

/-- Whether some physical row other than the one with id `id` holds `email`. -/
def emailTaken (rows : List User) (id : Nat) (email : String) : Bool :=
  rows.any (fun r => r.ID != id && r.Email == email)

/-- The create callbacks fill zero `CreatedAt` and `UpdatedAt` with the current time. -/
def stampCreate (now : Nat) (u : User) : User :=
  { u with CreatedAt := if u.CreatedAt = 0 then now else u.CreatedAt,
           UpdatedAt := if u.UpdatedAt = 0 then now else u.UpdatedAt }

/-- The statement `Create(user)`: an INSERT.  A zero `ID` is drawn from the sequence,
a non-zero one is inserted as given.  Returns the error, the caller's struct as gorm
leaves it, and the database. -/
def gormCreate (db : DB) (now : Nat) (user : User) : Option Error × User × DB :=
  match db.fault with
  | some m => (some (.other m), user, db)
  | none =>
    let u := stampCreate now user
    let id := if user.ID = 0 then db.seq + 1 else user.ID
    let db1 : DB := if user.ID = 0 then { db with seq := db.seq + 1 } else db
    if db.rows.any (fun r => r.ID == id) then
      (some (.pgUniqueViolation "users_pkey"), u, db1)
    else if emailTaken db.rows id u.Email then
      (some (.pgUniqueViolation "idx_users_email"), u, db1)
    else
      (none, { u with ID := id }, { db1 with rows := db.rows ++ [{ u with ID := id }] })

/-- The row written by the UPDATE of `Save`: every column of the struct, with
`updated_at` set to the current time. -/
def saveRow (now : Nat) (user : User) : User := { user with UpdatedAt := now }

/-- The row written by the `ON CONFLICT (id) DO UPDATE` arm of `Save`: every column but
the primary key and `created_at`. -/
def upsertRow (now : Nat) (old user : User) : User :=
  { user with CreatedAt := old.CreatedAt, UpdatedAt := now }

/-- The statement `Save(user)`.  With a zero primary key it is `Create`.  Otherwise it
updates all columns of the non-deleted row with that id; when no row was affected it
inserts the struct with `ON CONFLICT (id) DO UPDATE`. -/
def gormSave (db : DB) (now : Nat) (user : User) : Option Error × User × DB :=
  match db.fault with
  | some m => (some (.other m), user, db)
  | none =>
    if user.ID = 0 then gormCreate db now user
    else if db.rows.any (fun r => r.ID == user.ID && r.DeletedAt.isNone) then
      if emailTaken db.rows user.ID user.Email then
        (some (.pgUniqueViolation "idx_users_email"), saveRow now user, db)
      else
        (none, saveRow now user,
          { db with rows := db.rows.map (fun r =>
              if r.ID == user.ID && r.DeletedAt.isNone then saveRow now user else r) })
    else
      let u := stampCreate now { user with UpdatedAt := now }
      if emailTaken db.rows user.ID u.Email then
        (some (.pgUniqueViolation "idx_users_email"), u, db)
      else if db.rows.any (fun r => r.ID == user.ID) then
        (none, u, { db with rows := db.rows.map (fun r =>
              if r.ID == user.ID then upsertRow now r u else r) })
      else
        (none, u, { db with rows := db.rows ++ [u] })

/-- The statement `Delete(&models.User{}, id)`: sets `deleted_at` on the non-deleted row
with that id.  Affecting no row is not an error. -/
def gormDelete (db : DB) (now : Nat) (id : Nat) : Option Error × DB :=
  match db.fault with
  | some m => (some (.other m), db)
  | none =>
    (none, { db with rows := db.rows.map (fun r =>
        if r.ID == id && r.DeletedAt.isNone then { r with DeletedAt := some now } else r) })

/-- The query `Offset(offset).Limit(limit).Find(&users)`: the non-deleted rows in table
order, with `OFFSET` emitted for a positive offset only and `LIMIT` for a non-negative
limit only. -/
def gormFind (db : DB) (offset limit : Int) : Except Error (List User) :=
  match db.fault with
  | some m => .error (.other m)
  | none =>
    let visible := db.rows.filter (fun r => r.DeletedAt.isNone)
    let skipped := if 0 < offset then visible.drop offset.toNat else visible
    .ok (if 0 ≤ limit then skipped.take limit.toNat else skipped)

/-! ## The redis client (`*redis.Client`, go-redis v8) -/

/-- One key of the redis keyspace: its bytes and, when set with a TTL, the instant at
which it expires. -/
structure RedisEntry where
  key : String
  value : String
  expireAt : Option Nat
deriving DecidableEq, Repr

/-- The redis keyspace. -/
structure Redis where
  entries : List RedisEntry
deriving DecidableEq, Repr

/-- Whether an entry is still alive at time `now`. -/
def RedisEntry.live (e : RedisEntry) (now : Nat) : Bool :=
  match e.expireAt with
  | none => true
  | some t => decide (now < t)

/-- The command `GET key`: the bytes of a live entry, or nothing (`redis.Nil`). -/
def Redis.get (r : Redis) (now : Nat) (key : String) : Option String :=
  (r.entries.find? (fun e => e.key == key && e.live now)).map (fun e => e.value)

/-- The command `DEL key`. -/
def Redis.del (r : Redis) (key : String) : Redis :=
  { entries := r.entries.filter (fun e => e.key != key) }

/-- The command `SET key value` with expiry `ttl` (none when `ttl` is zero). -/
def Redis.set (r : Redis) (now : Nat) (key value : String) (ttl : Nat) : Redis :=
  { entries := { key := key, value := value,
                 expireAt := if ttl = 0 then none else some (now + ttl) }
               :: (r.del key).entries }

/-- The methods a Go type declares towards the interfaces `encoding.BinaryMarshaler` and
`encoding.BinaryUnmarshaler`; `none` when the type does not declare the method. -/
structure BinaryMethods (α : Type) where
  MarshalBinary : Option (α → Except Error String)
  UnmarshalBinary : Option (String → Except Error α)

/-- The method set of `models.UserResponse`: internal/models/user.go declares a plain
struct with no methods. -/
def UserResponse.binaryMethods : BinaryMethods UserResponse :=
  { MarshalBinary := none, UnmarshalBinary := none }

/-- The argument encoder of the client (`proto.Writer.WriteArg`) at a struct value: it is
written through its `MarshalBinary` method, and the command fails without being sent when
the type has none. -/
def writeArg {α : Type} (m : BinaryMethods α) (v : α) : Except Error String :=
  match m.MarshalBinary with
  | some f => f v
  | none => .error (.other "redis: can not marshal value (implement encoding.BinaryMarshaler)")

/-- The reply decoder (`proto.Scan`) at a pointer to a struct: the destination is filled
through its `UnmarshalBinary` method, and the scan fails when the type has none. -/
def scanArg {α : Type} (m : BinaryMethods α) (bytes : String) : Except Error α :=
  match m.UnmarshalBinary with
  | some f => f bytes
  | none => .error (.other "redis: can not unmarshal value (consider implementing BinaryUnmarshaler)")

/-! ## The world the service runs in -/

/-- Calls made on the repository and on the redis client, as they are logged. -/
inductive Call where
  | repoCreate (user : User)
  | repoGetByID (id : Nat)
  | repoGetByEmail (email : String)
  | repoUpdate (user : User)
  | repoDelete (id : Nat)
  | repoList (offset limit : Int)
  | redisGet (key : String)
  | redisSet (key : String) (ttl : Nat)
  | redisDel (key : String)
deriving DecidableEq, Repr

/-- Whether a logged call is a call on the repository (the store). -/
def Call.isStore : Call → Bool
  | .repoCreate _ => true
  | .repoGetByID _ => true
  | .repoGetByEmail _ => true
  | .repoUpdate _ => true
  | .repoDelete _ => true
  | .repoList _ _ => true
  | _ => false

/-- The state around the service: database, redis keyspace, current time and the calls
made so far (oldest first). -/
structure World where
  db : DB
  redis : Redis
  now : Nat
  trace : List Call
deriving DecidableEq, Repr

/-- Append a call to the log. -/
def World.log (w : World) (c : Call) : World := { w with trace := w.trace ++ [c] }

/-! ## `UserRepositoryImpl` (internal/repository/user_repository.go) -/

/-- The method `UserRepositoryImpl.Create`: `r.db.Create(user).Error`. -/
def UserRepositoryImpl.Create (user : User) (w : World) : Option Error × User × World :=
  let w1 := w.log (.repoCreate user)
  let r := gormCreate w1.db w1.now user
  (r.1, r.2.1, { w1 with db := r.2.2 })

/-- The method `UserRepositoryImpl.GetByID`: `r.db.First(&user, id)`. -/
def UserRepositoryImpl.GetByID (id : Nat) (w : World) : Except Error User × World :=
  (gormFirst w.db (fun r => r.ID == id), w.log (.repoGetByID id))

/-- The method `UserRepositoryImpl.GetByEmail`:
`r.db.Where("email = ?", email).First(&user)`. -/
def UserRepositoryImpl.GetByEmail (email : String) (w : World) : Except Error User × World :=
  (gormFirst w.db (fun r => r.Email == email), w.log (.repoGetByEmail email))

/-- The method `UserRepositoryImpl.Update`: `r.db.Save(user).Error`. -/
def UserRepositoryImpl.Update (user : User) (w : World) : Option Error × User × World :=
  let w1 := w.log (.repoUpdate user)
  let r := gormSave w1.db w1.now user
  (r.1, r.2.1, { w1 with db := r.2.2 })

/-- The method `UserRepositoryImpl.Delete`: `r.db.Delete(&models.User{}, id).Error`. -/
def UserRepositoryImpl.Delete (id : Nat) (w : World) : Option Error × World :=
  let w1 := w.log (.repoDelete id)
  let r := gormDelete w1.db w1.now id
  (r.1, { w1 with db := r.2 })

/-- The method `UserRepositoryImpl.List`: `r.db.Offset(offset).Limit(limit).Find(&users)`. -/
def UserRepositoryImpl.List (offset limit : Int) (w : World) :
    Except Error (List User) × World :=
  (gormFind w.db offset limit, w.log (.repoList offset limit))

/-! ## Client calls made by the service -/

/-- The call `s.redis.Get(ctx, key).Scan(&dest)`: the error of the `GET` (`redis.Nil` on a
missing or expired key) or else of decoding the reply into the destination. -/
def redisGetScan {α : Type} (m : BinaryMethods α) (key : String) (w : World) :
    Except Error α × World :=
  let w1 := w.log (.redisGet key)
  match w1.redis.get w1.now key with
  | none => (.error (.other "redis: nil"), w1)
  | some bytes => (scanArg m bytes, w1)

/-- The call `s.redis.Set(ctx, key, value, ttl)`: the value is encoded, and the `SET` is
sent only if encoding succeeded. -/
def redisSet {α : Type} (m : BinaryMethods α) (key : String) (value : α) (ttl : Nat)
    (w : World) : Option Error × World :=
  let w1 := w.log (.redisSet key ttl)
  match writeArg m value with
  | .error e => (some e, w1)
  | .ok bytes => (none, { w1 with redis := w1.redis.set w1.now key bytes ttl })

/-- The call `s.redis.Del(ctx, key)`. -/
def redisDel (key : String) (w : World) : World :=
  let w1 := w.log (.redisDel key)
  { w1 with redis := w1.redis.del key }

/-! ## `UserServiceImpl` (internal/services/user_service.go) -/

/-- What the service uses from outside the repository's own code: bcrypt and the token
issuer.  `CompareHashAndPassword hash password` is true when bcrypt returns a nil
error. -/
structure Deps where
  GenerateFromPassword : String → Except Error String
  CompareHashAndPassword : String → String → Bool
  Mint : Nat → String → Nat → Except Error String
  ValidateToken : String → Option (Nat × String)

/-- Modelled from the spec: `utils.GenerateToken(user, cfg)` is called by `Login` but its
file is not among the sources; the spec gives it as `Token Issuer.Mint(user.id,
user.role)`, a signed token embedding subject id, role, issued-at and expiry. -/
def GenerateToken (d : Deps) (user : User) (now : Nat) : Except Error String :=
  d.Mint user.ID user.Role now

/-- The projection of a user onto its public view, as written out in `GetByID` and
`List`. -/
def toResponse (user : User) : UserResponse :=
  { ID := user.ID, CreatedAt := user.CreatedAt, Email := user.Email,
    Name := user.Name, Role := user.Role }

/-- The method `UserServiceImpl.Create`.  Returns the error, the caller's struct as it is
left, and the world. -/
def UserServiceImpl.Create (d : Deps) (user : User) (w : World) :
    Option Error × User × World :=
  let r := UserRepositoryImpl.GetByEmail user.Email w
  match r.1 with
  | .ok _ => (some .ErrEmailExists, user, r.2)
  | .error _ =>
    match d.GenerateFromPassword user.Password with
    | .error e => (some e, user, r.2)
    | .ok hashed => UserRepositoryImpl.Create { user with Password := hashed } r.2

/-- The method `UserServiceImpl.GetByID`, for a given method set of the cached type. -/
def UserServiceImpl.GetByIDWith (m : BinaryMethods UserResponse) (id : Nat) (w : World) :
    Except Error UserResponse × World :=
  let cacheKey := getByIDCacheKey id
  let c := redisGetScan m cacheKey w
  match c.1 with
  | .ok userResp => (.ok userResp, c.2)
  | .error _ =>
    let r := UserRepositoryImpl.GetByID id c.2
    match r.1 with
    | .error _ => (.error .ErrUserNotFound, r.2)
    | .ok user =>
      let userResp := toResponse user
      (.ok userResp, (redisSet m cacheKey userResp Hour r.2).2)

/-- The method `UserServiceImpl.GetByID`: the cached type is `models.UserResponse`. -/
def UserServiceImpl.GetByID (id : Nat) (w : World) : Except Error UserResponse × World :=
  UserServiceImpl.GetByIDWith UserResponse.binaryMethods id w

/-- The method `UserServiceImpl.GetByEmail`. -/
def UserServiceImpl.GetByEmail (email : String) (w : World) : Except Error User × World :=
  let r := UserRepositoryImpl.GetByEmail email w
  match r.1 with
  | .error _ => (.error .ErrUserNotFound, r.2)
  | .ok user => (.ok user, r.2)

/-- The method `UserServiceImpl.Update`. -/
def UserServiceImpl.Update (d : Deps) (user : User) (w : World) :
    Option Error × User × World :=
  let hashed : Except Error User :=
    if user.Password ≠ "" then
      match d.GenerateFromPassword user.Password with
      | .error e => .error e
      | .ok h => .ok { user with Password := h }
    else .ok user
  match hashed with
  | .error e => (some e, user, w)
  | .ok u =>
    let r := UserRepositoryImpl.Update u w
    match r.1 with
    | some e => (some e, r.2.1, r.2.2)
    | none => (none, r.2.1, redisDel (updateCacheKey r.2.1.ID) r.2.2)

/-- The method `UserServiceImpl.Delete`. -/
def UserServiceImpl.Delete (id : Nat) (w : World) : Option Error × World :=
  let r := UserRepositoryImpl.Delete id w
  match r.1 with
  | some e => (some e, r.2)
  | none => (none, redisDel (deleteCacheKey id) r.2)

/-- The method `UserServiceImpl.Login`: the token and the error. -/
def UserServiceImpl.Login (d : Deps) (email password : String) (w : World) :
    (String × Option Error) × World :=
  let r := UserRepositoryImpl.GetByEmail email w
  match r.1 with
  | .error _ => (("", some .ErrInvalidCredentials), r.2)
  | .ok user =>
    if d.CompareHashAndPassword user.Password password then
      match GenerateToken d user r.2.now with
      | .error e => (("", some e), r.2)
      | .ok token => ((token, none), r.2)
    else (("", some .ErrInvalidCredentials), r.2)

/-- The method `UserServiceImpl.List`. -/
def UserServiceImpl.List (offset limit : Int) (w : World) :
    Except Error (List UserResponse) × World :=
  let r := UserRepositoryImpl.List offset limit w
  match r.1 with
  | .error e => (.error e, r.2)
  | .ok users => (.ok (users.map toResponse), r.2)

/-- The interface `services.UserService`, over the state `σ` its implementation works
on. -/
structure UserService (σ : Type) where
  Create : User → σ → Option Error × User × σ
  GetByID : Nat → σ → Except Error UserResponse × σ
  GetByEmail : String → σ → Except Error User × σ
  Update : User → σ → Option Error × User × σ
  Delete : Nat → σ → Option Error × σ
  List : Int → Int → σ → Except Error (List UserResponse) × σ
  Login : String → String → σ → (String × Option Error) × σ

/-- The constructor `NewUserService`: the implementation `UserServiceImpl` behind the
interface. -/
def NewUserService (d : Deps) : UserService World :=
  { Create := UserServiceImpl.Create d,
    GetByID := UserServiceImpl.GetByID,
    GetByEmail := UserServiceImpl.GetByEmail,
    Update := UserServiceImpl.Update d,
    Delete := UserServiceImpl.Delete,
    List := UserServiceImpl.List,
    Login := UserServiceImpl.Login d }

/-! ## Middlewares (internal/middlewares/auth.go) -/

/-- Modelled from the spec: the type `utils.JWTClaims` is not among the sources; the spec
gives the claims as subject user id and role (with issued-at and expiry, which no code
here reads). -/
structure JWTClaims where
  UserID : Nat
  Role : String
deriving DecidableEq, Repr

/-- Modelled from the spec: `utils.ValidateToken(token, cfg)` is not among the sources;
it yields the claims of a token that verifies and an error otherwise. -/
def ValidateToken (d : Deps) (token : String) : Except Error JWTClaims :=
  match d.ValidateToken token with
  | some c => .ok { UserID := c.1, Role := c.2 }
  | none => .error (.other "invalid token")

/-- The pieces of a character list between occurrences of `sep`. -/
def splitChars (sep : Char) : List Char → List (List Char)
  | [] => [[]]
  | c :: cs =>
    if c = sep then [] :: splitChars sep cs
    else
      match splitChars sep cs with
      | [] => [[c]]
      | p :: ps => (c :: p) :: ps

/-- The call `strings.Split(s, " ")`. -/
def stringsSplitSpace (s : String) : List String :=
  (splitChars ' ' s.data).map String.mk

/-- An HTTP request as far as routing and the middlewares read it: method, the non-empty
segments of the URL path, and the `Authorization` header (empty when absent). -/
structure Request where
  method : String
  path : List String
  authorization : String
deriving DecidableEq, Repr

/-- What a handler does with a request: pass it on (`c.Next()`) with the value it left
under `Locals("user")`, answer with a status of its own, or serve the endpoint. -/
inductive Outcome where
  | next (locals : Option JWTClaims)
  | respond (status : Nat)
  | served
deriving DecidableEq, Repr

/-- The handler returned by `AuthMiddleware(cfg)`. -/
def AuthMiddleware (d : Deps) (req : Request) : Outcome :=
  let authHeader := req.authorization
  if authHeader = "" then .respond 401
  else
    let tokenParts := stringsSplitSpace authHeader
    if tokenParts.length ≠ 2 ∨ tokenParts.getD 0 "" ≠ "Bearer" then .respond 401
    else
      match ValidateToken d (tokenParts.getD 1 "") with
      | .error _ => .respond 401
      | .ok claims => .next (some claims)

/-- The handler returned by `AdminMiddleware()`; `locals` is the value under
`Locals("user")`. -/
def AdminMiddleware (locals : Option JWTClaims) : Outcome :=
  match locals with
  | none => .respond 401
  | some claims => if claims.Role ≠ "admin" then .respond 403 else .next locals

/-! ## The route table (cmd/api/main.go, internal/controllers) -/

/-- The handlers that `main` and the controllers register on the fiber app. -/
inductive Handler where
  | recover
  | logger
  | cors
  | static
  | swagger
  | HealthCheck
  | Login
  | CreateUser
  | ListUsers
  | GetUser
  | UpdateUser
  | DeleteUser
  | AuthMiddleware
  | AdminMiddleware
deriving DecidableEq, Repr

/-- One segment of a route path: a literal, a parameter such as `:id`, or `*`. -/
inductive Seg where
  | lit (s : String)
  | param (name : String)
  | star
deriving DecidableEq, Repr

/-- One entry of the router stack.  `methods` is empty for `Use` (every method); `use`
marks entries that match every path below their own (`Use`, `Static`). -/
structure Route where
  methods : List String
  path : List Seg
  use : Bool
  handler : Handler
deriving DecidableEq, Repr

/-- The router stack, in registration order. -/
abbrev App := List Route

/-- Registration by `Use` on a group with the given path. -/
def App.Use (app : App) (path : List Seg) (h : Handler) : App :=
  app ++ [{ methods := [], path := path, use := true, handler := h }]

/-- Registration by `Static`: a `GET`/`HEAD` entry for everything below the path. -/
def App.Static (app : App) (path : List Seg) : App :=
  app ++ [{ methods := ["GET", "HEAD"], path := path, use := true, handler := .static }]

/-- Registration by `Get`, which fiber also registers for `HEAD`. -/
def App.Get (app : App) (path : List Seg) (h : Handler) : App :=
  app ++ [{ methods := ["HEAD", "GET"], path := path, use := false, handler := h }]

/-- Registration by `Post`, `Put` or `Delete`. -/
def App.Add (app : App) (method : String) (path : List Seg) (h : Handler) : App :=
  app ++ [{ methods := [method], path := path, use := false, handler := h }]

/-- The method `HealthController.Register`. -/
def HealthController.Register (app : App) : App :=
  app.Get [.lit "health"] .HealthCheck

/-- The method `UserController.Register`: the group `/api/v1`, its two public routes,
and the group `/api/v1/users` with its four routes.  Neither group is given a
middleware. -/
def UserController.Register (app : App) : App :=
  let api : List Seg := [.lit "api", .lit "v1"]
  let app := app.Add "POST" (api ++ [.lit "login"]) .Login
  let app := app.Add "POST" (api ++ [.lit "users"]) .CreateUser
  let users : List Seg := api ++ [.lit "users"]
  let app := app.Get users .ListUsers
  let app := app.Get (users ++ [.param "id"]) .GetUser
  let app := app.Add "PUT" (users ++ [.param "id"]) .UpdateUser
  app.Add "DELETE" (users ++ [.param "id"]) .DeleteUser

/-- The router stack as `main` builds it. -/
def mainApp : App :=
  let app : App := []
  let app := app.Use [] .recover
  let app := app.Use [] .logger
  let app := app.Use [] .cors
  let app := app.Static [.lit "api", .lit "v1", .lit "docs"]
  let app := app.Get [.lit "swagger", .star] .swagger
  let api : List Seg := [.lit "api", .lit "v1"]
  let app := HealthController.Register app
  let app := UserController.Register app
  let protectedGroup : List Seg := api ++ [.lit "protected"]
  let app := app.Use protectedGroup .AuthMiddleware
  let admin : List Seg := protectedGroup ++ [.lit "admin"]
  app.Use admin .AdminMiddleware

/-- Whether a route path matches a request path, segment by segment (the request path
is taken as already normalised: no empty segments); with `use` the route path need only
match the beginning of the request path.  Segments are compared exactly: fiber's default
of ignoring letter case, and its comparing a `Use` path as a prefix of the path text
rather than of its segments, are outside this function, which therefore accepts no
request that fiber would not. -/
def matchPath (use : Bool) : List Seg → List String → Bool
  | [], [] => true
  | [], _ :: _ => use
  | .star :: _, _ => true
  | .lit s :: ps, x :: xs => s == x && matchPath use ps xs
  | .param _ :: ps, _ :: xs => matchPath use ps xs
  | _ :: _, [] => false

/-- Whether a stack entry applies to a request. -/
def Route.matches (r : Route) (req : Request) : Bool :=
  (r.methods.isEmpty || r.methods.contains req.method) && matchPath r.use r.path req.path

/-- What each registered handler does with a request.  The three library middlewares
pass the request on (`cors` answers a preflight itself, taken here to be every `OPTIONS`
request); the endpoint handlers and the file and swagger handlers serve it (the file
handler is taken to find its file; fiber passes a request for a missing file on). -/
def runHandler (d : Deps) (h : Handler) (req : Request) (locals : Option JWTClaims) :
    Outcome :=
  match h with
  | .recover => .next locals
  | .logger => .next locals
  | .cors => if req.method = "OPTIONS" then .respond 204 else .next locals
  | .AuthMiddleware => AuthMiddleware d req
  | .AdminMiddleware => AdminMiddleware locals
  | _ => .served

/-- Fiber's dispatch: the stack is walked in registration order, each matching handler
runs, and the walk goes on only when the handler calls `c.Next()`.  Returns the handlers
that ran, in order, and the status when one was set by a middleware or by the router
(404 when the stack is exhausted; fiber's 405 for a path registered under another method
only is not told apart from it). -/
def dispatch (d : Deps) : List Route → Request → Option JWTClaims → List Handler × Option Nat
  | [], _, _ => ([], some 404)
  | r :: rest, req, locals =>
    if r.matches req then
      match runHandler d r.handler req locals with
      | .next locals1 =>
        let t := dispatch d rest req locals1
        (r.handler :: t.1, t.2)
      | .respond st => ([r.handler], some st)
      | .served => ([r.handler], none)
    else dispatch d rest req locals

/-- The handlers that run for a request on the application built by `main`. -/
def handlersRun (d : Deps) (req : Request) : List Handler :=
  (dispatch d mainApp req none).1

/-- The chain `main` puts on the group `/api/v1/protected/admin`: `AuthMiddleware` and,
when it calls `c.Next()`, `AdminMiddleware` on the value it left under
`Locals("user")`. -/
def authThenAdmin (d : Deps) (req : Request) : Outcome :=
  match AuthMiddleware d req with
  | .next locals => AdminMiddleware locals
  | .respond st => .respond st
  | .served => .served

/-! ## Validation (internal/models/user.go) -/

/-- The record `models.ValidationError`. -/
structure ValidationError where
  Field : String
  Error : String
deriving DecidableEq, Repr

/-- The function `getErrorMsg`, on the tag and parameter of the failed rule. -/
def getErrorMsg (tag param : String) : String :=
  if tag = "required" then "This field is required"
  else if tag = "email" then "Invalid email format"
  else if tag = "min" then "Should be at least " ++ param ++ " characters long"
  else if tag = "oneof" then "Should be one of: " ++ param
  else "Unknown validation error"

/-- The validator reports, for one field, the first rule of its tag that fails; a rule
is given as tag, parameter and whether the value passes. -/
def fieldErrors (field : String) (rules : List (String × String × Bool)) :
    List ValidationError :=
  match rules.find? (fun r => !r.2.2) with
  | none => []
  | some r => [{ Field := field, Error := getErrorMsg r.1 r.2.1 }]

/-- The method `User.Validate`, with the rules of the `validate` tags of `models.User`;
`isEmail` is the validator library's test for an email address.  The empty list is the
`nil` result. -/
def User.Validate (isEmail : String → Bool) (u : User) : List ValidationError :=
  fieldErrors "Email" [("required", "", u.Email != ""), ("email", "", isEmail u.Email)]
  ++ fieldErrors "Password"
      [("required", "", u.Password != ""), ("min", "6", decide (6 ≤ u.Password.length))]
  ++ fieldErrors "Name" [("required", "", u.Name != "")]
  ++ fieldErrors "Role"
      [("required", "", u.Role != ""),
       ("oneof", "admin user", u.Role == "admin" || u.Role == "user")]

/-! ## Number parsing (`strconv`) and Go `int` arithmetic -/

/-- The result of `strconv.ParseUint`: a value, a syntax error or a range error. -/
inductive ParseResult where
  | ok (n : Nat)
  | syntaxErr
  | rangeErr
deriving DecidableEq, Repr

/-- The digit loop of `strconv.ParseUint` in base ten: a character that is not a digit
is a syntax error, a value above `maxVal` a range error, whichever comes first. -/
def parseDigits (maxVal : Nat) : List Char → Nat → ParseResult
  | [], n => .ok n
  | c :: cs, n =>
    if c.isDigit then
      if maxVal < n * 10 + (c.toNat - 48) then .rangeErr
      else parseDigits maxVal cs (n * 10 + (c.toNat - 48))
    else .syntaxErr

/-- The call `strconv.ParseUint(s, 10, bitSize)`. -/
def ParseUint10 (s : String) (bitSize : Nat) : ParseResult :=
  if s = "" then .syntaxErr else parseDigits (2 ^ bitSize - 1) s.data 0

/-- The value returned by `strconv.Atoi(s)` on a 64-bit platform (the error is dropped by
the caller): zero on a syntax error, the nearest bound on a range error. -/
def Atoi (s : String) : Int :=
  match s.data with
  | [] => 0
  | c :: cs =>
    let digits := if c = '-' ∨ c = '+' then cs else c :: cs
    if digits = [] then 0
    else
      match parseDigits (2 ^ 64 - 1) digits 0 with
      | .syntaxErr => 0
      | .rangeErr => if c = '-' then -(2 ^ 63) else 2 ^ 63 - 1
      | .ok n =>
        if c = '-' then (if 2 ^ 63 < n then -(2 ^ 63) else -(n : Int))
        else (if 2 ^ 63 ≤ n then 2 ^ 63 - 1 else (n : Int))

/-- The result of an arithmetic operation on Go `int` (64 bits, two's complement): the
exact integer reduced into the range from `-2^63` to `2^63 - 1`. -/
def wrapInt64 (x : Int) : Int := (x + 2 ^ 63) % 2 ^ 64 - 2 ^ 63

/-! ## `UserController` (internal/controllers/user_controller.go) -/

/-- The record `LoginRequest`. -/
structure LoginRequest where
  Email : String
  Password : String
deriving DecidableEq, Repr

/-- The JSON payload of a response. -/
inductive Body where
  | error (msg : String)
  | message (msg : String)
  | token (t : String)
  | user (v : UserResponse)
  | users (l : List UserResponse) (page limit : Int)
  | validation (errs : List ValidationError)
deriving DecidableEq, Repr

/-- The response a handler writes: status and payload. -/
structure Response where
  status : Nat
  body : Body
deriving DecidableEq, Repr

/-- The call `ctx.Query(key, defaultValue)`, on the raw value of the key (empty when the
key is absent). -/
def Query (value defaultValue : String) : String :=
  if value = "" then defaultValue else value

/-- The handler `UserController.Login`; `body` is what `BodyParser` decoded, `none` when
it failed. -/
def UserController.Login {σ : Type} (svc : UserService σ) (body : Option LoginRequest)
    (s : σ) : Response × σ :=
  match body with
  | none => ({ status := 400, body := .error "invalid request body" }, s)
  | some req =>
    let r := svc.Login req.Email req.Password s
    match r.1.2 with
    | some err =>
      if err = .ErrInvalidCredentials then
        ({ status := 401, body := .error "invalid credentials" }, r.2)
      else ({ status := 500, body := .error "internal server error" }, r.2)
    | none => ({ status := 200, body := .token r.1.1 }, r.2)

/-- The handler `UserController.CreateUser`. -/
def UserController.CreateUser {σ : Type} (isEmail : String → Bool) (svc : UserService σ)
    (body : Option User) (s : σ) : Response × σ :=
  match body with
  | none => ({ status := 400, body := .error "invalid request body" }, s)
  | some user =>
    if User.Validate isEmail user ≠ [] then
      ({ status := 400, body := .validation (User.Validate isEmail user) }, s)
    else
      let r := svc.Create user s
      match r.1 with
      | some err =>
        if err = .ErrEmailExists then
          ({ status := 409, body := .error "email already exists" }, r.2.2)
        else ({ status := 500, body := .error "failed to create user" }, r.2.2)
      | none => ({ status := 201, body := .message "user created successfully" }, r.2.2)

/-- The handler `UserController.GetUser`; `idParam` is `ctx.Params("id")`. -/
def UserController.GetUser {σ : Type} (svc : UserService σ) (idParam : String) (s : σ) :
    Response × σ :=
  match ParseUint10 idParam 32 with
  | .ok id =>
    let r := svc.GetByID id s
    match r.1 with
    | .error err =>
      if err = .ErrUserNotFound then
        ({ status := 404, body := .error "user not found" }, r.2)
      else ({ status := 500, body := .error "internal server error" }, r.2)
    | .ok user => ({ status := 200, body := .user user }, r.2)
  | _ => ({ status := 400, body := .error "invalid user id" }, s)

/-- The handler `UserController.UpdateUser`. -/
def UserController.UpdateUser {σ : Type} (isEmail : String → Bool) (svc : UserService σ)
    (idParam : String) (body : Option User) (s : σ) : Response × σ :=
  match ParseUint10 idParam 32 with
  | .ok id =>
    match body with
    | none => ({ status := 400, body := .error "invalid request body" }, s)
    | some user =>
      if User.Validate isEmail user ≠ [] then
        ({ status := 400, body := .validation (User.Validate isEmail user) }, s)
      else
        let r := svc.Update { user with ID := id } s
        match r.1 with
        | some err =>
          if err = .ErrUserNotFound then
            ({ status := 404, body := .error "user not found" }, r.2.2)
          else ({ status := 500, body := .error "internal server error" }, r.2.2)
        | none => ({ status := 200, body := .message "user updated successfully" }, r.2.2)
  | _ => ({ status := 400, body := .error "invalid user id" }, s)

/-- The handler `UserController.DeleteUser`. -/
def UserController.DeleteUser {σ : Type} (svc : UserService σ) (idParam : String) (s : σ) :
    Response × σ :=
  match ParseUint10 idParam 32 with
  | .ok id =>
    let r := svc.Delete id s
    match r.1 with
    | some err =>
      if err = .ErrUserNotFound then
        ({ status := 404, body := .error "user not found" }, r.2)
      else ({ status := 500, body := .error "internal server error" }, r.2)
    | none => ({ status := 200, body := .message "user deleted successfully" }, r.2)
  | _ => ({ status := 400, body := .error "invalid user id" }, s)

/-- The handler `UserController.ListUsers` from the parsed `page` and `limit` on: the
two clamps, the offset in Go `int` arithmetic, and the call of `List`. -/
def UserController.listUsersParsed {σ : Type} (svc : UserService σ) (page limit : Int)
    (s : σ) : Response × σ :=
  let page := if page < 1 then 1 else page
  let limit := if limit < 1 then 10 else limit
  let offset := wrapInt64 (wrapInt64 (page - 1) * limit)
  let r := svc.List offset limit s
  match r.1 with
  | .error _ => ({ status := 500, body := .error "internal server error" }, r.2)
  | .ok users => ({ status := 200, body := .users users page limit }, r.2)

/-- The handler `UserController.ListUsers`; the arguments are the raw values of the
query keys `page` and `limit`. -/
def UserController.ListUsers {σ : Type} (svc : UserService σ) (pageQuery limitQuery : String)
    (s : σ) : Response × σ :=
  UserController.listUsersParsed svc (Atoi (Query pageQuery "1"))
    (Atoi (Query limitQuery "10")) s

/-- The page of the claim on paging: `page` if it is at least 1, and 1 otherwise. -/
def specPage (page : Int) : Int := if 1 ≤ page then page else 1

/-- The limit of the claim on paging: `limit` if it is at least 1, and 10 otherwise. -/
def specLimit (limit : Int) : Int := if 1 ≤ limit then limit else 10

/-- A service whose state is the list of argument pairs its `List` was called with;
its other methods do nothing. -/
def recordingService : UserService (List (Int × Int)) :=
  { Create := fun u s => (none, u, s),
    GetByID := fun _ s => (.error .ErrUserNotFound, s),
    GetByEmail := fun _ s => (.error .ErrUserNotFound, s),
    Update := fun u s => (none, u, s),
    Delete := fun _ s => (none, s),
    List := fun offset limit s => (.ok [], s ++ [(offset, limit)]),
    Login := fun _ _ s => (("", some .ErrInvalidCredentials), s) }

/-- A stand-in for the validator's email test, for evaluation: the text holds an `@`. -/
def exampleIsEmail (s : String) : Bool := decide ('@' ∈ s.data)

/-! ## Concrete inputs used to evaluate the definitions -/

/-- A hasher and token issuer for evaluation: the hash of `p` is `p` behind a marker,
verification compares against it, and a token spells out role and id. -/
def exampleDeps : Deps :=
  { GenerateFromPassword := fun p => .ok ("h:" ++ p),
    CompareHashAndPassword := fun h p => h == "h:" ++ p,
    Mint := fun id role _ => .ok (role ++ "#" ++ Nat.repr id),
    ValidateToken := fun t =>
      if t = "admin#1" then some (1, "admin")
      else if t = "user#2" then some (2, "user")
      else none }

/-- The user of the spec's example, as decoded from a request body. -/
def alice : User :=
  { ID := 0, CreatedAt := 0, UpdatedAt := 0, DeletedAt := none,
    Email := "a@x.com", Password := "secret1", Name := "A", Role := "user" }

/-- The row of `alice` as stored by `Create` at time 100, under id `id`. -/
def aliceRow (id : Nat) : User :=
  { alice with ID := id, CreatedAt := 100, UpdatedAt := 100, Password := "h:secret1" }

/-- A world with an empty table and an empty keyspace, at time 100. -/
def emptyWorld : World :=
  { db := { rows := [], seq := 0, fault := none }, redis := { entries := [] },
    now := 100, trace := [] }

/-- A world whose table holds the row of `alice` under id `id`. -/
def worldWithAlice (id : Nat) : World :=
  { emptyWorld with db := { rows := [aliceRow id], seq := id, fault := none } }

/-- A world whose table holds the row of `alice` under id 1, soft-deleted at time 50. -/
def worldWithDeletedAlice : World :=
  { emptyWorld with
    db := { rows := [{ aliceRow 1 with DeletedAt := some 50 }], seq := 1, fault := none } }

/-- A world whose database connection is broken. -/
def brokenWorld : World :=
  { emptyWorld with db := { rows := [aliceRow 1], seq := 1, fault := some "connection refused" } }

/-- A world holding the row of `alice` under id 65 and, in redis, a view of her under
the key `user:65`, written by some client able to encode it. -/
def worldWithCachedAlice : World :=
  { worldWithAlice 65 with
    redis := { entries := [{ key := "user:65", value := "alice", expireAt := none }] } }

/-- A second user, as decoded from a request body. -/
def bob : User :=
  { ID := 0, CreatedAt := 0, UpdatedAt := 0, DeletedAt := none,
    Email := "b@x.com", Password := "hunter22", Name := "B", Role := "user" }

/-- The world reached from the empty one by `Update` of `bob` under id 1, an id that is
not stored: `Save` inserts the row and the id sequence is not advanced. -/
def worldAfterUpdateOfAbsentId : World :=
  (UserServiceImpl.Update exampleDeps { bob with ID := 1 } emptyWorld).2.2

/-- The world reached from the empty one by `Create` of `alice` followed by `Delete` of
her id: her row is kept, soft-deleted. -/
def worldAfterCreateDelete : World :=
  (UserServiceImpl.Delete 1 (UserServiceImpl.Create exampleDeps alice emptyWorld).2.2).2

/-- The row that `Create` stores for `user` once its password is hashed, on a table whose
sequence stands at `seq`, at time `now`. -/
def createdRow (user : User) (hashed : String) (seq now : Nat) : User :=
  { stampCreate now { user with Password := hashed } with ID := seq + 1 }

/-! ## Lemmas on the redis keyspace -/

theorem Redis.get_del_of_ne (r : Redis) (now : Nat) (key other : String)
    (h : other ≠ key) : (r.del other).get now key = r.get now key := by
  obtain ⟨entries⟩ := r
  simp only [Redis.get, Redis.del]
  congr 1
  induction entries with
  | nil => rfl
  | cons e es ih =>
    rw [List.filter_cons, List.find?_cons]
    by_cases hk : e.key = other
    · have hne : (e.key == key) = false := by simp [hk, h]
      have hf : (e.key != other) = false := by simp [hk]
      simp only [hf, hne, Bool.false_and, Bool.false_eq_true, if_false]
      exact ih
    · have hf : (e.key != other) = true := by simp [hk]
      simp only [hf, if_true, List.find?_cons]
      cases hl : (e.key == key && e.live now) <;> simp [ih]

theorem Redis.get_del_self (r : Redis) (now : Nat) (key : String) :
    (r.del key).get now key = none := by
  obtain ⟨entries⟩ := r
  simp only [Redis.get, Redis.del, Option.map_eq_none', List.find?_eq_none]
  intro e he
  simp only [List.mem_filter] at he
  have : e.key ≠ key := by simpa using he.2
  simp [this]

/-! ## Lemmas on cache keys -/

theorem toDigitsCore_length_ge (fuel n : Nat) (acc : List Char) (h : 0 < fuel) :
    acc.length + 1 ≤ (Nat.toDigitsCore 10 fuel n acc).length := by
  induction fuel generalizing n acc with
  | zero => omega
  | succ f ih =>
    simp only [Nat.toDigitsCore]
    split
    · simp
    · rcases Nat.eq_zero_or_pos f with hf | hf
      · subst hf; simp [Nat.toDigitsCore]
      · have := ih (n / 10) (Nat.digitChar (n % 10) :: acc) hf
        simp only [List.length_cons] at this
        omega

theorem repr_length_ge_two (n : Nat) (h : 10 ≤ n) : 2 ≤ (Nat.repr n).length := by
  have hne : n / 10 ≠ 0 := by omega
  have := toDigitsCore_length_ge n (n / 10) [Nat.digitChar (n % 10)] (by omega)
  simp only [Nat.repr, Nat.toDigits, Nat.toDigitsCore, hne, if_false, String.length,
    List.asString]
  simpa using this

theorem goStringOfInt_length (n : Nat) : (goStringOfInt n).length = 1 := by
  unfold goStringOfInt
  split <;> rfl

/-- The one-rune text of a code point is never the decimal rendering of its number. -/
theorem goStringOfInt_ne_repr (n : Nat) : goStringOfInt n ≠ Nat.repr n := by
  intro h
  have hlen := congrArg String.length h
  rw [goStringOfInt_length] at hlen
  have hlt : n < 10 := by
    by_contra hge
    have := repr_length_ge_two n (by omega)
    omega
  interval_cases n <;> revert h <;> decide

/-- The key of `Delete` differs from the key of `GetByID` for every id. -/
theorem deleteCacheKey_ne_getByIDCacheKey (id : Nat) :
    deleteCacheKey id ≠ getByIDCacheKey id := by
  intro h
  apply goStringOfInt_ne_repr id
  have h1 : ("user:" ++ goStringOfInt id).data = ("user:" ++ sprintfD id).data :=
    congrArg String.data h
  simp only [String.data_append, List.append_cancel_left_eq] at h1
  exact String.ext h1

/-! ## Lemmas on the store -/

theorem firstByID_eq_none (l : List User) : firstByID l = none ↔ l = [] := by
  cases l with
  | nil => simp [firstByID]
  | cons u us =>
    simp only [firstByID, reduceCtorEq, iff_false]
    cases firstByID us with
    | none => simp
    | some v => by_cases h : u.ID ≤ v.ID <;> simp [h]

theorem firstByID_mem (l : List User) (u : User) (h : firstByID l = some u) : u ∈ l := by
  induction l generalizing u with
  | nil => simp [firstByID] at h
  | cons a as ih =>
    simp only [firstByID] at h
    cases hf : firstByID as with
    | none =>
      rw [hf] at h
      simp only [Option.some.injEq] at h
      simp [h]
    | some v =>
      rw [hf] at h
      by_cases hle : a.ID ≤ v.ID
      · simp only [hle, if_true, Option.some.injEq] at h
        simp [h]
      · simp only [hle, if_false, Option.some.injEq] at h
        exact List.mem_cons_of_mem _ (ih v hf |> fun hm => h ▸ hm)

theorem gormFirst_found (db : DB) (cond : User → Bool) (r : User) (hf : db.fault = none)
    (hr : r ∈ db.rows) (hd : r.DeletedAt = none) (hc : cond r = true) :
    ∃ u, gormFirst db cond = .ok u := by
  have hmem : r ∈ db.rows.filter (fun r => r.DeletedAt.isNone && cond r) := by
    simp [List.mem_filter, hr, hd, hc]
  have hne : firstByID (db.rows.filter (fun r => r.DeletedAt.isNone && cond r)) ≠ none := by
    intro h
    rw [firstByID_eq_none] at h
    rw [h] at hmem
    simp at hmem
  simp only [gormFirst, hf]
  cases hq : firstByID (db.rows.filter (fun r => r.DeletedAt.isNone && cond r)) with
  | none => exact absurd hq hne
  | some u => exact ⟨u, rfl⟩

theorem gormFirst_none (db : DB) (cond : User → Bool) (hf : db.fault = none)
    (h : ∀ r ∈ db.rows, r.DeletedAt = none → cond r = false) :
    gormFirst db cond = .error .ErrRecordNotFound := by
  have hnil : db.rows.filter (fun r => r.DeletedAt.isNone && cond r) = [] := by
    rw [List.filter_eq_nil_iff]
    intro r hr
    cases hd : r.DeletedAt with
    | none => simp [h r hr hd]
    | some t => simp
  simp [gormFirst, hf, hnil, firstByID]

/-! ## C1: the cache key removed by `Delete` -/

/-- C1 (code defect): the key `Delete` removes is never the key `GetByID` uses.  For every
id the two strings differ, because `string(id)` is the one-rune text of code point `id`
and not its decimal digits; so `Delete` leaves whatever is stored under the `GetByID` key
in place.  At id 65 the keys are `user:A` and `user:65`, and an entry under `user:65`
survives a successful `Delete(65)`. -/
theorem C1_delete_removes_a_different_key :
    (∀ id : Nat, deleteCacheKey id ≠ getByIDCacheKey id) ∧
    (∀ (id : Nat) (w : World),
      (UserServiceImpl.Delete id w).2.redis.get w.now (getByIDCacheKey id)
        = w.redis.get w.now (getByIDCacheKey id)) ∧
    deleteCacheKey 65 = "user:A" ∧ getByIDCacheKey 65 = "user:65" ∧
    (UserServiceImpl.Delete 65 worldWithCachedAlice).1 = none ∧
    (UserServiceImpl.Delete 65 worldWithCachedAlice).2.redis.get 100 (getByIDCacheKey 65)
      = some "alice" := by
  refine ⟨deleteCacheKey_ne_getByIDCacheKey, ?_, by decide, by decide, by decide, by decide⟩
  intro id w
  simp only [UserServiceImpl.Delete, UserRepositoryImpl.Delete, gormDelete, World.log]
  cases hf : w.db.fault with
  | some m => simp
  | none =>
    simp only [redisDel, World.log]
    exact Redis.get_del_of_ne _ _ _ _ (deleteCacheKey_ne_getByIDCacheKey id)

/-! ## C2: login failures -/

/-- C2: `Login` returns the empty token with `ErrInvalidCredentials` when the lookup by
email fails with any error, and returns the very same pair when the lookup succeeds but
the password does not verify against the stored hash. -/
theorem C2_login_failures_collapse (d : Deps) (email password : String) (w : World) :
    (∀ e, (UserRepositoryImpl.GetByEmail email w).1 = .error e →
      (UserServiceImpl.Login d email password w).1 = ("", some .ErrInvalidCredentials)) ∧
    (∀ u, (UserRepositoryImpl.GetByEmail email w).1 = .ok u →
      d.CompareHashAndPassword u.Password password = false →
      (UserServiceImpl.Login d email password w).1 = ("", some .ErrInvalidCredentials)) := by
  constructor
  · intro e he
    simp only [UserServiceImpl.Login, he]
  · intro u hu hv
    simp only [UserServiceImpl.Login, hu, hv, Bool.false_eq_true, if_false]

/-- C2 at concrete inputs: an unknown email, a broken connection and a wrong password all
give the same result. -/
theorem C2_login_failures_collapse_witness :
    (UserServiceImpl.Login exampleDeps "a@x.com" "secret1" emptyWorld).1
      = ("", some .ErrInvalidCredentials) ∧
    (UserServiceImpl.Login exampleDeps "a@x.com" "secret1" brokenWorld).1
      = ("", some .ErrInvalidCredentials) ∧
    (UserServiceImpl.Login exampleDeps "a@x.com" "wrong" (worldWithAlice 1)).1
      = ("", some .ErrInvalidCredentials) :=
  ⟨(C2_login_failures_collapse exampleDeps "a@x.com" "secret1" emptyWorld).1
      .ErrRecordNotFound (by decide),
   (C2_login_failures_collapse exampleDeps "a@x.com" "secret1" brokenWorld).1
      (.other "connection refused") (by decide),
   (C2_login_failures_collapse exampleDeps "a@x.com" "wrong" (worldWithAlice 1)).2
      (aliceRow 1) (by decide) (by decide)⟩

/-! ## C3: `Create` with an email already held -/

/-- C3: when a non-deleted stored user holds the email of the user passed to `Create`
(and the database answers), `Create` returns `ErrEmailExists`, the table is what it was,
and the only call made is the lookup by email: `Store.Create` is not called. -/
theorem C3_create_existing_email (d : Deps) (user : User) (w : World)
    (hf : w.db.fault = none)
    (h : ∃ r ∈ w.db.rows, r.Email = user.Email ∧ r.DeletedAt = none) :
    (UserServiceImpl.Create d user w).1 = some .ErrEmailExists ∧
    (UserServiceImpl.Create d user w).2.2.db = w.db ∧
    (UserServiceImpl.Create d user w).2.2.redis = w.redis ∧
    (UserServiceImpl.Create d user w).2.2.trace
      = w.trace ++ [.repoGetByEmail user.Email] := by
  obtain ⟨r, hr, he, hd⟩ := h
  obtain ⟨u, hu⟩ := gormFirst_found w.db (fun r => r.Email == user.Email) r hf hr hd
    (by simp [he])
  simp [UserServiceImpl.Create, UserRepositoryImpl.GetByEmail, hu, World.log]

/-- C3 at a concrete input: a second user with the email of `alice` but another name,
password and role is refused and nothing is stored. -/
theorem C3_create_existing_email_witness :
    (UserServiceImpl.Create exampleDeps
        { alice with Name := "B", Password := "other99", Role := "admin" }
        (worldWithAlice 1)).1 = some .ErrEmailExists ∧
    (UserServiceImpl.Create exampleDeps
        { alice with Name := "B", Password := "other99", Role := "admin" }
        (worldWithAlice 1)).2.2.db = (worldWithAlice 1).db ∧
    (UserServiceImpl.Create exampleDeps
        { alice with Name := "B", Password := "other99", Role := "admin" }
        (worldWithAlice 1)).2.2.redis = (worldWithAlice 1).redis ∧
    (UserServiceImpl.Create exampleDeps
        { alice with Name := "B", Password := "other99", Role := "admin" }
        (worldWithAlice 1)).2.2.trace = (worldWithAlice 1).trace ++ [.repoGetByEmail "a@x.com"] :=
  C3_create_existing_email exampleDeps
    { alice with Name := "B", Password := "other99", Role := "admin" } (worldWithAlice 1)
    (by decide) ⟨aliceRow 1, by decide, by decide, by decide⟩

/-! ## C4: `Create` when the store rejects the insert -/

/-- C4 (counterexample): with the email held only by a soft-deleted row, the pre-check of
`Create` finds nothing, the store rejects the insert for the unique index on email, and
`Create` returns that driver error, not `ErrEmailExists`. -/
theorem C4_counterexample :
    (UserRepositoryImpl.GetByEmail alice.Email worldWithDeletedAlice).1
      = .error .ErrRecordNotFound ∧
    (UserRepositoryImpl.Create { alice with Password := "h:secret1" }
        (UserRepositoryImpl.GetByEmail alice.Email worldWithDeletedAlice).2).1
      = some (.pgUniqueViolation "idx_users_email") ∧
    (UserServiceImpl.Create exampleDeps alice worldWithDeletedAlice).1
      = some (.pgUniqueViolation "idx_users_email") ∧
    (UserServiceImpl.Create exampleDeps alice worldWithDeletedAlice).1
      ≠ some .ErrEmailExists := by
  decide

/-- C4 (amended): when the pre-check of `Create` finds nothing, the password hashes, and
`Store.Create` then fails with a unique-constraint violation, `Create` returns that
violation error as the store gave it. -/
theorem C4_create_returns_store_error (d : Deps) (user : User) (w : World) (e : Error)
    (hashed c : String)
    (hpre : (UserRepositoryImpl.GetByEmail user.Email w).1 = .error e)
    (hhash : d.GenerateFromPassword user.Password = .ok hashed)
    (hstore : (UserRepositoryImpl.Create { user with Password := hashed }
        (UserRepositoryImpl.GetByEmail user.Email w).2).1 = some (.pgUniqueViolation c)) :
    (UserServiceImpl.Create d user w).1 = some (.pgUniqueViolation c) := by
  simp only [UserServiceImpl.Create, hpre, hhash]
  exact hstore

/-- C4 (amended) at a concrete input: the email of `alice` is held by a soft-deleted
row. -/
theorem C4_create_returns_store_error_witness :
    (UserServiceImpl.Create exampleDeps alice worldWithDeletedAlice).1
      = some (.pgUniqueViolation "idx_users_email") :=
  C4_create_returns_store_error exampleDeps alice worldWithDeletedAlice .ErrRecordNotFound
    "h:secret1" "idx_users_email" (by decide) (by decide) (by decide)

/-! ## C5: `Update` and `Delete` on an id that is not stored -/

theorem gormCreate_ne_notFound (db : DB) (now : Nat) (user : User) :
    (gormCreate db now user).1 ≠ some .ErrUserNotFound := by
  unfold gormCreate
  cases db.fault with
  | some m => simp
  | none =>
    dsimp only
    split_ifs <;> simp

theorem gormSave_ne_notFound (db : DB) (now : Nat) (user : User) :
    (gormSave db now user).1 ≠ some .ErrUserNotFound := by
  unfold gormSave
  cases db.fault with
  | some m => simp
  | none =>
    dsimp only
    split_ifs
    · exact gormCreate_ne_notFound db now user
    all_goals simp

/-- C5 (code defect): on a table that holds no user, `Delete(7)` returns no error and
`Update` of a user with id 7 returns no error and inserts a row with that id; neither
returns `ErrUserNotFound`.  In general `Delete` never returns `ErrUserNotFound`, and the
repository's `Update`, whose error `UserServiceImpl.Update` returns as it is, never
yields it either. -/
theorem C5_absent_id_is_not_reported :
    (UserServiceImpl.Delete 7 emptyWorld).1 = none ∧
    (UserServiceImpl.Update exampleDeps { alice with ID := 7 } emptyWorld).1 = none ∧
    (UserServiceImpl.Update exampleDeps { alice with ID := 7 } emptyWorld).2.2.db.rows
      = [aliceRow 7] ∧
    (UserServiceImpl.Delete 1 worldWithDeletedAlice).1 = none ∧
    (∀ (id : Nat) (w : World), (UserServiceImpl.Delete id w).1 ≠ some .ErrUserNotFound) ∧
    (∀ (user : User) (w : World),
      (UserRepositoryImpl.Update user w).1 ≠ some .ErrUserNotFound) := by
  refine ⟨by decide, by decide, by decide, by decide, ?_, ?_⟩
  · intro id w
    simp only [UserServiceImpl.Delete, UserRepositoryImpl.Delete, gormDelete, World.log]
    cases w.db.fault <;> simp
  · intro user w
    simp only [UserRepositoryImpl.Update]
    exact gormSave_ne_notFound _ _ _

/-! ## C6: `Update` with an empty password -/

/-- Whenever the user's row is stored and not deleted, `Update` with the empty password
writes the struct over it, empty password included. -/
theorem Update_empty_password_rows (d : Deps) (user : User) (w : World)
    (hp : user.Password = "") (hid : user.ID ≠ 0) (hf : w.db.fault = none)
    (hex : (w.db.rows.any fun r => r.ID == user.ID && r.DeletedAt.isNone) = true)
    (hem : emailTaken w.db.rows user.ID user.Email = false) :
    (UserServiceImpl.Update d user w).1 = none ∧
    (UserServiceImpl.Update d user w).2.2.db.rows
      = w.db.rows.map (fun r =>
          if r.ID == user.ID && r.DeletedAt.isNone then { user with UpdatedAt := w.now }
          else r) ∧
    ({ user with UpdatedAt := w.now } : User).Password = "" := by
  simp [UserServiceImpl.Update, hp, UserRepositoryImpl.Update, gormSave, World.log, hf, hid,
    hex, hem, saveRow, redisDel]

/-- C6 (code defect): with the row of `alice` stored under id 1 and holding the hash
`h:secret1`, `Update` of a user with id 1 and the empty password succeeds and leaves the
empty string as the stored password: `Save` writes every column of the struct. -/
theorem C6_empty_password_overwrites_hash :
    (worldWithAlice 1).db.rows.map (fun r => (r.ID, r.Password)) = [(1, "h:secret1")] ∧
    (UserServiceImpl.Update exampleDeps { alice with ID := 1, Password := "" }
        (worldWithAlice 1)).1 = none ∧
    (UserServiceImpl.Update exampleDeps { alice with ID := 1, Password := "" }
        (worldWithAlice 1)).2.2.db.rows.map (fun r => (r.ID, r.Password)) = [(1, "")] := by
  decide

/-! ## C7, C8: `GetByID` and the cache -/

/-- The service's `GetByID` leaves the keyspace as it found it. -/
theorem GetByID_redis (id : Nat) (w : World) : (UserServiceImpl.GetByID id w).2.redis = w.redis := by
  simp only [UserServiceImpl.GetByID, UserServiceImpl.GetByIDWith, redisGetScan, scanArg,
    UserResponse.binaryMethods, World.log, UserRepositoryImpl.GetByID, redisSet, writeArg]
  cases w.redis.get w.now (getByIDCacheKey id) <;>
    cases gormFirst w.db (fun r => r.ID == id) <;> rfl

/-- Every `GetByID` call reads the cache key and then calls the store. -/
theorem GetByID_trace (id : Nat) (w : World) :
    ∃ rest, (UserServiceImpl.GetByID id w).2.trace
      = w.trace ++ Call.redisGet (getByIDCacheKey id) :: Call.repoGetByID id :: rest := by
  simp only [UserServiceImpl.GetByID, UserServiceImpl.GetByIDWith, redisGetScan, scanArg,
    UserResponse.binaryMethods, World.log, UserRepositoryImpl.GetByID, redisSet, writeArg]
  cases w.redis.get w.now (getByIDCacheKey id) <;>
    cases gormFirst w.db (fun r => r.ID == id) <;> simp

/-- What the cache-aside path does for a cached type that can be encoded and decoded:
after a miss that found the user, a second call before the TTL runs out returns the same
view from the cache and makes no call but the `GET`. -/
theorem GetByIDWith_hit_after_miss (m : BinaryMethods UserResponse)
    (enc : UserResponse → Except Error String) (dec : String → Except Error UserResponse)
    (hm : m.MarshalBinary = some enc) (hu : m.UnmarshalBinary = some dec)
    (hrt : ∀ v, ∃ b, enc v = .ok b ∧ dec b = .ok v)
    (id : Nat) (w : World) (user : User) (t : Nat)
    (hmiss : w.redis.get w.now (getByIDCacheKey id) = none)
    (hstore : gormFirst w.db (fun r => r.ID == id) = .ok user)
    (ht : t < w.now + Hour) :
    (UserServiceImpl.GetByIDWith m id w).1 = .ok (toResponse user) ∧
    UserServiceImpl.GetByIDWith m id { (UserServiceImpl.GetByIDWith m id w).2 with now := t }
      = (.ok (toResponse user),
          World.log { (UserServiceImpl.GetByIDWith m id w).2 with now := t }
            (.redisGet (getByIDCacheKey id))) := by
  obtain ⟨b, hb, hd⟩ := hrt (toResponse user)
  have hH : Hour ≠ 0 := by decide
  have h1 : UserServiceImpl.GetByIDWith m id w
      = (.ok (toResponse user),
          { db := w.db, redis := w.redis.set w.now (getByIDCacheKey id) b Hour, now := w.now,
            trace := w.trace ++ [.redisGet (getByIDCacheKey id)] ++ [.repoGetByID id]
              ++ [.redisSet (getByIDCacheKey id) Hour] }) := by
    simp [UserServiceImpl.GetByIDWith, redisGetScan, World.log, hmiss,
      UserRepositoryImpl.GetByID, hstore, redisSet, writeArg, hm, hb]
  rw [h1]
  refine ⟨rfl, ?_⟩
  have hget : (w.redis.set w.now (getByIDCacheKey id) b Hour).get t (getByIDCacheKey id)
      = some b := by
    simp [Redis.get, Redis.set, hH, RedisEntry.live, ht]
  simp [UserServiceImpl.GetByIDWith, redisGetScan, World.log, hget, scanArg, hu, hd]

/-- C7 (code defect): the second of two consecutive `GetByID` calls is not a cache hit.
With `alice` stored under id 1 and an empty cache, both calls return the same view, the
first leaves the keyspace empty, and the second again calls the store.  In general
`GetByID` never changes the keyspace and every call consults the store, since a
`models.UserResponse` can be neither encoded for `SET` nor decoded from `GET`. -/
theorem C7_second_call_consults_store :
    (UserServiceImpl.GetByID 1 (worldWithAlice 1)).1 = .ok (toResponse (aliceRow 1)) ∧
    (UserServiceImpl.GetByID 1 (worldWithAlice 1)).2.redis.entries = [] ∧
    (UserServiceImpl.GetByID 1 (UserServiceImpl.GetByID 1 (worldWithAlice 1)).2).1
      = .ok (toResponse (aliceRow 1)) ∧
    (UserServiceImpl.GetByID 1 (UserServiceImpl.GetByID 1 (worldWithAlice 1)).2).2.trace
      = (UserServiceImpl.GetByID 1 (worldWithAlice 1)).2.trace
          ++ [.redisGet "user:1", .repoGetByID 1, .redisSet "user:1" Hour] ∧
    (∀ (id : Nat) (w : World), (UserServiceImpl.GetByID id w).2.redis = w.redis) ∧
    (∀ (id : Nat) (w : World), ∃ rest, (UserServiceImpl.GetByID id w).2.trace
      = w.trace ++ Call.redisGet (getByIDCacheKey id) :: Call.repoGetByID id :: rest) := by
  refine ⟨by decide, by decide, by decide, by decide, GetByID_redis, GetByID_trace⟩

/-- C8 (code defect): on a miss with the user stored, `GetByID` returns the projection
but writes nothing to the cache: with `alice` stored under id 1 the result is her view
and no entry exists under `user:1` afterwards.  In general the result is
`ErrUserNotFound` when the store lookup fails and the projection of the stored user
otherwise, and the value under the key is what it was before the call. -/
theorem C8_miss_writes_nothing :
    (UserServiceImpl.GetByID 1 (worldWithAlice 1)).1 = .ok (toResponse (aliceRow 1)) ∧
    (UserServiceImpl.GetByID 1 (worldWithAlice 1)).2.redis.get 100 (getByIDCacheKey 1)
      = none ∧
    (∀ (id : Nat) (w : World),
      (UserServiceImpl.GetByID id w).1
        = match gormFirst w.db (fun r => r.ID == id) with
          | .error _ => .error .ErrUserNotFound
          | .ok user => .ok (toResponse user)) ∧
    (∀ (id : Nat) (w : World),
      (UserServiceImpl.GetByID id w).2.redis.get w.now (getByIDCacheKey id)
        = w.redis.get w.now (getByIDCacheKey id)) := by
  refine ⟨by decide, by decide, ?_, ?_⟩
  · intro id w
    simp only [UserServiceImpl.GetByID, UserServiceImpl.GetByIDWith, redisGetScan, scanArg,
      UserResponse.binaryMethods, World.log, UserRepositoryImpl.GetByID, redisSet, writeArg]
    cases w.redis.get w.now (getByIDCacheKey id) <;>
      cases gormFirst w.db (fun r => r.ID == id) <;> rfl
  · intro id w
    rw [GetByID_redis]

/-! ## C9: `Create` followed by `Login` -/

/-- The result of `Create` for an email no row holds, on a database that answers and
whose next sequence value is free. -/
theorem Create_fresh (d : Deps) (user : User) (w : World) (hashed : String)
    (hf : w.db.fault = none) (hid : user.ID = 0)
    (hfresh : ∀ r ∈ w.db.rows, r.Email ≠ user.Email)
    (hnext : ∀ r ∈ w.db.rows, r.ID ≠ w.db.seq + 1)
    (hhash : d.GenerateFromPassword user.Password = .ok hashed) :
    (UserServiceImpl.Create d user w).1 = none ∧
    (UserServiceImpl.Create d user w).2.1 = createdRow user hashed w.db.seq w.now ∧
    (UserServiceImpl.Create d user w).2.2.db =
      { rows := w.db.rows ++ [createdRow user hashed w.db.seq w.now],
        seq := w.db.seq + 1, fault := none } ∧
    (UserServiceImpl.Create d user w).2.2.now = w.now := by
  have hpre : gormFirst w.db (fun r => r.Email == user.Email) = .error .ErrRecordNotFound :=
    gormFirst_none w.db _ hf (fun r hr _ => by simpa using hfresh r hr)
  have hpk : (w.db.rows.any fun r => r.ID == w.db.seq + 1) = false := by
    rw [List.any_eq_false]
    intro r hr
    simpa using hnext r hr
  have hem : emailTaken w.db.rows (w.db.seq + 1) user.Email = false := by
    unfold emailTaken
    rw [List.any_eq_false]
    intro r hr
    simp [hfresh r hr]
  simp [UserServiceImpl.Create, UserRepositoryImpl.GetByEmail, hpre, hhash,
    UserRepositoryImpl.Create, gormCreate, World.log, hf, hid, hpk, hem, stampCreate,
    createdRow]

/-- C9 (counterexample): with a hasher that hashes and verifies and a token issuer that
always mints, `Create` of a user whose email is not in the store can fail, and `Login`
then fails too.  First, after `Update` of an absent id 1 has inserted a row with that id
(the sequence still at 0), `Create` of `alice`, whose email no row holds, is refused for
the primary key.  Second, after `alice` was created and deleted, her email is held by no
non-deleted user, and `Create` of `alice` is refused for the unique index on email.
Third, on a broken connection `Create` of `bob` returns the connection error. -/
theorem C9_counterexample :
    (exampleDeps.GenerateFromPassword alice.Password = .ok "h:secret1" ∧
      exampleDeps.CompareHashAndPassword "h:secret1" alice.Password = true ∧
      ∀ id role t, exampleDeps.Mint id role t = .ok (role ++ "#" ++ Nat.repr id)) ∧
    ((UserServiceImpl.Update exampleDeps { bob with ID := 1 } emptyWorld).1 = none ∧
      worldAfterUpdateOfAbsentId.db.rows.map (fun r => (r.ID, r.Email, r.DeletedAt))
        = [(1, "b@x.com", none)] ∧
      worldAfterUpdateOfAbsentId.db.seq = 0 ∧
      (UserServiceImpl.Create exampleDeps alice worldAfterUpdateOfAbsentId).1
        = some (.pgUniqueViolation "users_pkey") ∧
      (UserServiceImpl.Login exampleDeps "a@x.com" "secret1"
          (UserServiceImpl.Create exampleDeps alice worldAfterUpdateOfAbsentId).2.2).1
        = ("", some .ErrInvalidCredentials)) ∧
    (worldAfterCreateDelete.db.rows.map (fun r => (r.ID, r.Email, r.DeletedAt))
        = [(1, "a@x.com", some 100)] ∧
      (UserServiceImpl.GetByEmail "a@x.com" worldAfterCreateDelete).1
        = .error .ErrUserNotFound ∧
      (UserServiceImpl.Create exampleDeps alice worldAfterCreateDelete).1
        = some (.pgUniqueViolation "idx_users_email") ∧
      (UserServiceImpl.Login exampleDeps "a@x.com" "secret1"
          (UserServiceImpl.Create exampleDeps alice worldAfterCreateDelete).2.2).1
        = ("", some .ErrInvalidCredentials)) ∧
    ((UserServiceImpl.Create exampleDeps bob brokenWorld).1
        = some (.other "connection refused")) := by
  refine ⟨⟨by decide, by decide, fun _ _ _ => rfl⟩, by decide, by decide, by decide⟩

/-- C9 (amended): for a user as decoded from a request (no id, no deletion marker) whose
email is held by no row of the table, soft-deleted rows included, on a database that
answers and in which no row has the id the sequence hands out next, with a hasher for
which the password hashes and the hash verifies, and a token issuer that mints `token`
for the new id and the user's role: `Create` succeeds, the user gets that id and keeps
its role, and `Login` with the same email and plaintext password at any later time
returns `token` and no error. -/
theorem C9_create_then_login (d : Deps) (user : User) (w : World) (hashed token : String)
    (t : Nat)
    (hf : w.db.fault = none) (hid : user.ID = 0) (hdel : user.DeletedAt = none)
    (hfresh : ∀ r ∈ w.db.rows, r.Email ≠ user.Email)
    (hnext : ∀ r ∈ w.db.rows, r.ID ≠ w.db.seq + 1)
    (hhash : d.GenerateFromPassword user.Password = .ok hashed)
    (hverify : d.CompareHashAndPassword hashed user.Password = true)
    (hmint : d.Mint (w.db.seq + 1) user.Role t = .ok token) :
    (UserServiceImpl.Create d user w).1 = none ∧
    (UserServiceImpl.Create d user w).2.1.ID = w.db.seq + 1 ∧
    (UserServiceImpl.Create d user w).2.1.Role = user.Role ∧
    (UserServiceImpl.Login d user.Email user.Password
        { (UserServiceImpl.Create d user w).2.2 with now := t }).1 = (token, none) := by
  obtain ⟨h1, h2, h3, _⟩ := Create_fresh d user w hashed hf hid hfresh hnext hhash
  refine ⟨h1, by rw [h2]; rfl, by rw [h2]; rfl, ?_⟩
  have hfilter : (w.db.rows ++ [createdRow user hashed w.db.seq w.now]).filter
      (fun r => r.DeletedAt.isNone && r.Email == user.Email)
      = [createdRow user hashed w.db.seq w.now] := by
    have hold : w.db.rows.filter (fun r => r.DeletedAt.isNone && r.Email == user.Email) = [] := by
      rw [List.filter_eq_nil_iff]
      intro r hr
      simp [hfresh r hr]
    rw [List.filter_append, hold]
    simp [createdRow, stampCreate, hdel]
  have hget : gormFirst
      (DB.mk (w.db.rows ++ [createdRow user hashed w.db.seq w.now]) (w.db.seq + 1) none)
      (fun r => r.Email == user.Email)
      = .ok (createdRow user hashed w.db.seq w.now) := by
    simp only [gormFirst, hfilter, firstByID]
  have hpw : (createdRow user hashed w.db.seq w.now).Password = hashed := rfl
  have hrid : (createdRow user hashed w.db.seq w.now).ID = w.db.seq + 1 := rfl
  have hrole : (createdRow user hashed w.db.seq w.now).Role = user.Role := rfl
  simp only [UserServiceImpl.Login, UserRepositoryImpl.GetByEmail, h3, hget, hpw, hverify,
    if_true, GenerateToken, World.log, hrid, hrole, hmint]

/-- C9 (amended) at the spec's example: `alice` is created on an empty table and logs in
with `secret1`, getting the token minted for id 1 and role `user`. -/
theorem C9_create_then_login_witness :
    (UserServiceImpl.Create exampleDeps alice emptyWorld).1 = none ∧
    (UserServiceImpl.Create exampleDeps alice emptyWorld).2.1.ID = 1 ∧
    (UserServiceImpl.Create exampleDeps alice emptyWorld).2.1.Role = "user" ∧
    (UserServiceImpl.Login exampleDeps "a@x.com" "secret1"
        { (UserServiceImpl.Create exampleDeps alice emptyWorld).2.2 with now := 200 }).1
      = ("user#1", none) :=
  C9_create_then_login exampleDeps alice emptyWorld "h:secret1" "user#1" 200
    (by decide) (by decide) (by decide) (by decide) (by decide) (by decide) (by decide)
    (by decide)

/-! ## C10: the routes marked protected -/

/-- C10 (code defect): the four routes under `/api/v1/users` run their handlers without
`AuthMiddleware`.  For every token validator, every id segment and every value of the
`Authorization` header (the empty one included), the handlers that run are the three
global middlewares followed by the endpoint handler; `AuthMiddleware` is registered only
under `/api/v1/protected`, where no endpoint is. -/
theorem C10_user_routes_skip_auth (d : Deps) (id auth : String) :
    handlersRun d { method := "GET", path := ["api", "v1", "users"], authorization := auth }
      = [.recover, .logger, .cors, .ListUsers] ∧
    handlersRun d { method := "GET", path := ["api", "v1", "users", id], authorization := auth }
      = [.recover, .logger, .cors, .GetUser] ∧
    handlersRun d { method := "PUT", path := ["api", "v1", "users", id], authorization := auth }
      = [.recover, .logger, .cors, .UpdateUser] ∧
    handlersRun d { method := "DELETE", path := ["api", "v1", "users", id], authorization := auth }
      = [.recover, .logger, .cors, .DeleteUser] ∧
    (mainApp.filter (fun r => r.handler == .AuthMiddleware)).map (fun r => r.path)
      = [[.lit "api", .lit "v1", .lit "protected"]] := by
  refine ⟨?_, ?_, ?_, ?_, by decide⟩ <;>
    simp [handlersRun, mainApp, App.Use, App.Static, App.Get, App.Add,
      HealthController.Register, UserController.Register, dispatch, Route.matches,
      matchPath, runHandler]

/-! ## C11: `AuthMiddleware` followed by `AdminMiddleware` -/

/-- The outcome of `AuthMiddleware` read off the parts of the header. -/
theorem AuthMiddleware_eq (d : Deps) (req : Request) :
    AuthMiddleware d req =
      match stringsSplitSpace req.authorization with
      | [b, tok] =>
        if b = "Bearer" then
          match ValidateToken d tok with
          | .error _ => .respond 401
          | .ok claims => .next (some claims)
        else .respond 401
      | _ => .respond 401 := by
  by_cases h : req.authorization = ""
  · have hs : stringsSplitSpace "" = [""] := rfl
    simp [AuthMiddleware, h, hs]
  · simp only [AuthMiddleware, h, if_false]
    rcases hs : stringsSplitSpace req.authorization with _ | ⟨a, _ | ⟨b, _ | ⟨c, rest⟩⟩⟩
    · simp
    · simp
    · by_cases hb : a = "Bearer"
      · simp [hb]
      · simp [hb]
    · simp

/-- C11: the chain `AuthMiddleware` then `AdminMiddleware` calls the next handler exactly
when the `Authorization` header splits on spaces into the two parts `Bearer` and a token,
the token validates, and the validated role is `admin`.  It answers 401 when the header
is empty, when it does not split into `Bearer` and one more part, or when the token does
not validate, and 403 when the token validates with another role; in those cases the
next handler is not called. -/
theorem C11_auth_then_admin (d : Deps) (req : Request) :
    ((∃ l, authThenAdmin d req = .next l) ↔
      ∃ tok claims, stringsSplitSpace req.authorization = ["Bearer", tok] ∧
        ValidateToken d tok = .ok claims ∧ claims.Role = "admin") ∧
    (req.authorization = "" → authThenAdmin d req = .respond 401) ∧
    ((¬ ∃ tok, stringsSplitSpace req.authorization = ["Bearer", tok]) →
      authThenAdmin d req = .respond 401) ∧
    (∀ tok e, stringsSplitSpace req.authorization = ["Bearer", tok] →
      ValidateToken d tok = .error e → authThenAdmin d req = .respond 401) ∧
    (∀ tok claims, stringsSplitSpace req.authorization = ["Bearer", tok] →
      ValidateToken d tok = .ok claims → claims.Role ≠ "admin" →
      authThenAdmin d req = .respond 403) := by
  have hmal : (¬ ∃ tok, stringsSplitSpace req.authorization = ["Bearer", tok]) →
      authThenAdmin d req = .respond 401 := by
    intro hno
    simp only [authThenAdmin, AuthMiddleware_eq]
    rcases hs : stringsSplitSpace req.authorization with _ | ⟨a, _ | ⟨b, _ | ⟨c, rest⟩⟩⟩
    · rfl
    · rfl
    · by_cases hb : a = "Bearer"
      · exact absurd ⟨b, by rw [hs, hb]⟩ hno
      · simp [hb]
    · rfl
  have hinv : ∀ tok e, stringsSplitSpace req.authorization = ["Bearer", tok] →
      ValidateToken d tok = .error e → authThenAdmin d req = .respond 401 := by
    intro tok e hs he
    simp [authThenAdmin, AuthMiddleware_eq, hs, he]
  have hrole : ∀ tok claims, stringsSplitSpace req.authorization = ["Bearer", tok] →
      ValidateToken d tok = .ok claims → claims.Role ≠ "admin" →
      authThenAdmin d req = .respond 403 := by
    intro tok claims hs hv hr
    simp [authThenAdmin, AuthMiddleware_eq, hs, hv, AdminMiddleware, hr]
  refine ⟨⟨?_, ?_⟩, ?_, hmal, hinv, hrole⟩
  · rintro ⟨l, hl⟩
    by_cases hex : ∃ tok, stringsSplitSpace req.authorization = ["Bearer", tok]
    · obtain ⟨tok, hs⟩ := hex
      cases hv : ValidateToken d tok with
      | error e => rw [hinv tok e hs hv] at hl; cases hl
      | ok claims =>
        by_cases hr : claims.Role = "admin"
        · exact ⟨tok, claims, hs, hv, hr⟩
        · rw [hrole tok claims hs hv hr] at hl; cases hl
    · rw [hmal hex] at hl; cases hl
  · rintro ⟨tok, claims, hs, hv, hr⟩
    exact ⟨some claims, by simp [authThenAdmin, AuthMiddleware_eq, hs, hv, AdminMiddleware, hr]⟩
  · intro he
    apply hmal
    rintro ⟨tok, hs⟩
    rw [he, show stringsSplitSpace "" = [""] from rfl] at hs
    simp at hs

/-- C11 at concrete headers: an admin token passes, and a missing header, a header with
two spaces, an unknown token and a token of another role are answered 401, 401, 401 and
403. -/
theorem C11_auth_then_admin_witness :
    (∃ l, authThenAdmin exampleDeps
        { method := "GET", path := ["api", "v1", "protected", "admin"],
          authorization := "Bearer admin#1" } = .next l) ∧
    authThenAdmin exampleDeps
        { method := "GET", path := ["api", "v1", "protected", "admin"],
          authorization := "" } = .respond 401 ∧
    authThenAdmin exampleDeps
        { method := "GET", path := ["api", "v1", "protected", "admin"],
          authorization := "Bearer  admin#1" } = .respond 401 ∧
    authThenAdmin exampleDeps
        { method := "GET", path := ["api", "v1", "protected", "admin"],
          authorization := "Bearer nobody" } = .respond 401 ∧
    authThenAdmin exampleDeps
        { method := "GET", path := ["api", "v1", "protected", "admin"],
          authorization := "Bearer user#2" } = .respond 403 :=
  ⟨(C11_auth_then_admin exampleDeps _).1.2 ⟨"admin#1", ⟨1, "admin"⟩, by decide, by decide, by decide⟩,
   (C11_auth_then_admin exampleDeps _).2.1 rfl,
   (C11_auth_then_admin exampleDeps _).2.2.1 (by
     rintro ⟨tok, h⟩
     have h2 : stringsSplitSpace "Bearer  admin#1" = ["Bearer", tok] := h
     rw [show stringsSplitSpace "Bearer  admin#1" = ["Bearer", "", "admin#1"] from by decide]
       at h2
     simp at h2),
   (C11_auth_then_admin exampleDeps _).2.2.2.1 "nobody" (.other "invalid token")
     (by decide) (by decide),
   (C11_auth_then_admin exampleDeps _).2.2.2.2 "user#2" ⟨2, "user"⟩ (by decide) (by decide)
     (by decide)⟩

/-- On the application built by `main`, a `GET` below `/api/v1/protected/admin` runs the
chain and then finds no endpoint: the status is the chain's own, or 404 when the chain
calls the next handler. -/
theorem dispatch_admin_group (d : Deps) (auth : String) (rest : List String) :
    (dispatch d mainApp
        { method := "GET", path := "api" :: "v1" :: "protected" :: "admin" :: rest,
          authorization := auth } none).2
      = match authThenAdmin d
          { method := "GET", path := "api" :: "v1" :: "protected" :: "admin" :: rest,
            authorization := auth } with
        | .next _ => some 404
        | .respond st => some st
        | .served => none := by
  have hm : ∀ r : List String, matchPath true [] r = true := fun r => by cases r <;> rfl
  simp only [mainApp, App.Use, App.Static, App.Get, App.Add, HealthController.Register,
    UserController.Register, List.nil_append, List.cons_append, List.append_assoc,
    List.singleton_append, dispatch, Route.matches, matchPath, runHandler, authThenAdmin]
  simp only [List.isEmpty, List.contains, List.elem, Bool.true_or, Bool.true_and,
    Bool.and_true, if_true]
  cases hA : AuthMiddleware d
      { method := "GET", path := "api" :: "v1" :: "protected" :: "admin" :: rest,
        authorization := auth } with
  | next l =>
    cases hB : AdminMiddleware l <;> simp [hA, hB, hm]
  | respond st => simp [hA]
  | served => simp [hA]

/-! ## C12: status codes of the user handlers -/

/-- C12: for every implementation of the service interface and every state, the user
handlers turn the service's result into the status as follows.  `CreateUser`: 201 on no
error, 409 on `ErrEmailExists`, 500 on any other error.  `GetUser`, `UpdateUser`,
`DeleteUser`: 200 on no error, 404 on `ErrUserNotFound`, 500 on any other error.
`Login`: 200 on no error, 401 on `ErrInvalidCredentials`, 500 on any other error.  A user
that fails `Validate` gets 400 from `CreateUser` and `UpdateUser` and the state is left
as it was: no method of the service is applied. -/
theorem C12_status_mapping {σ : Type} (isEmail : String → Bool) (svc : UserService σ)
    (s : σ) :
    (∀ user, User.Validate isEmail user = [] →
      (UserController.CreateUser isEmail svc (some user) s).1.status
        = match (svc.Create user s).1 with
          | none => 201
          | some e => if e = .ErrEmailExists then 409 else 500) ∧
    (∀ user, User.Validate isEmail user ≠ [] →
      (UserController.CreateUser isEmail svc (some user) s).1.status = 400 ∧
      (UserController.CreateUser isEmail svc (some user) s).2 = s) ∧
    (∀ idParam id, ParseUint10 idParam 32 = .ok id →
      (UserController.GetUser svc idParam s).1.status
        = match (svc.GetByID id s).1 with
          | .ok _ => 200
          | .error e => if e = .ErrUserNotFound then 404 else 500) ∧
    (∀ idParam id user, ParseUint10 idParam 32 = .ok id →
      User.Validate isEmail user = [] →
      (UserController.UpdateUser isEmail svc idParam (some user) s).1.status
        = match (svc.Update { user with ID := id } s).1 with
          | none => 200
          | some e => if e = .ErrUserNotFound then 404 else 500) ∧
    (∀ idParam id user, ParseUint10 idParam 32 = .ok id →
      User.Validate isEmail user ≠ [] →
      (UserController.UpdateUser isEmail svc idParam (some user) s).1.status = 400 ∧
      (UserController.UpdateUser isEmail svc idParam (some user) s).2 = s) ∧
    (∀ idParam id, ParseUint10 idParam 32 = .ok id →
      (UserController.DeleteUser svc idParam s).1.status
        = match (svc.Delete id s).1 with
          | none => 200
          | some e => if e = .ErrUserNotFound then 404 else 500) ∧
    (∀ req : LoginRequest,
      (UserController.Login svc (some req) s).1.status
        = match (svc.Login req.Email req.Password s).1.2 with
          | none => 200
          | some e => if e = .ErrInvalidCredentials then 401 else 500) := by
  refine ⟨?_, ?_, ?_, ?_, ?_, ?_, ?_⟩
  · intro user hv
    simp only [UserController.CreateUser, hv, ne_eq, not_true_eq_false, if_false]
    cases h : (svc.Create user s).1 with
    | none => rfl
    | some e => by_cases he : e = .ErrEmailExists <;> simp [he]
  · intro user hv
    simp [UserController.CreateUser, hv]
  · intro idParam id hid
    simp only [UserController.GetUser, hid]
    cases h : (svc.GetByID id s).1 with
    | ok v => rfl
    | error e => by_cases he : e = .ErrUserNotFound <;> simp [he]
  · intro idParam id user hid hv
    simp only [UserController.UpdateUser, hid, hv, ne_eq, not_true_eq_false, if_false]
    cases h : (svc.Update { user with ID := id } s).1 with
    | none => rfl
    | some e => by_cases he : e = .ErrUserNotFound <;> simp [he]
  · intro idParam id user hid hv
    simp [UserController.UpdateUser, hid, hv]
  · intro idParam id hid
    simp only [UserController.DeleteUser, hid]
    cases h : (svc.Delete id s).1 with
    | none => rfl
    | some e => by_cases he : e = .ErrUserNotFound <;> simp [he]
  · intro req
    simp only [UserController.Login]
    cases h : (svc.Login req.Email req.Password s).1.2 with
    | none => rfl
    | some e => by_cases he : e = .ErrInvalidCredentials <;> simp [he]

/-- C12 on the service built by `NewUserService`: creating `alice` is 201 on an empty
table and 409 when her email is stored; a five-letter password is 400 and nothing is
called; an unknown id is 404 from `GetUser`; a wrong password is 401; and on a broken
connection `DeleteUser` is 500. -/
theorem C12_status_mapping_witness :
    (UserController.CreateUser exampleIsEmail (NewUserService exampleDeps) (some alice)
        emptyWorld).1.status = 201 ∧
    (UserController.CreateUser exampleIsEmail (NewUserService exampleDeps) (some alice)
        (worldWithAlice 1)).1.status = 409 ∧
    ((UserController.CreateUser exampleIsEmail (NewUserService exampleDeps)
        (some { alice with Password := "short" }) emptyWorld).1.status = 400 ∧
      (UserController.CreateUser exampleIsEmail (NewUserService exampleDeps)
        (some { alice with Password := "short" }) emptyWorld).2 = emptyWorld) ∧
    (UserController.GetUser (NewUserService exampleDeps) "9" (worldWithAlice 1)).1.status
      = 404 ∧
    (UserController.Login (NewUserService exampleDeps)
        (some { Email := "a@x.com", Password := "wrong" }) (worldWithAlice 1)).1.status
      = 401 ∧
    (UserController.DeleteUser (NewUserService exampleDeps) "1" brokenWorld).1.status
      = 500 := by
  refine ⟨?_, ?_, ?_, ?_, ?_, ?_⟩
  · rw [(C12_status_mapping exampleIsEmail (NewUserService exampleDeps) emptyWorld).1
      alice (by decide)]
    decide
  · rw [(C12_status_mapping exampleIsEmail (NewUserService exampleDeps)
      (worldWithAlice 1)).1 alice (by decide)]
    decide
  · exact (C12_status_mapping exampleIsEmail (NewUserService exampleDeps) emptyWorld).2.1
      { alice with Password := "short" } (by decide)
  · rw [(C12_status_mapping exampleIsEmail (NewUserService exampleDeps)
      (worldWithAlice 1)).2.2.1 "9" 9 (by decide)]
    decide
  · rw [(C12_status_mapping exampleIsEmail (NewUserService exampleDeps)
      (worldWithAlice 1)).2.2.2.2.2.2 { Email := "a@x.com", Password := "wrong" }]
    decide
  · rw [(C12_status_mapping exampleIsEmail (NewUserService exampleDeps)
      brokenWorld).2.2.2.2.2.1 "1" 1 (by decide)]
    decide

/-! ## C13: `Update` and the cache key -/

/-- The key of `Update` is the key of `GetByID` for every id. -/
theorem updateCacheKey_eq_getByIDCacheKey (id : Nat) :
    updateCacheKey id = getByIDCacheKey id := rfl

/-- The statement `Save` leaves a non-zero primary key of the struct as it is. -/
theorem gormSave_ID (db : DB) (now : Nat) (user : User) (h : user.ID ≠ 0) :
    (gormSave db now user).2.1.ID = user.ID := by
  unfold gormSave
  cases db.fault with
  | some m => rfl
  | none =>
    dsimp only
    split_ifs with h0
    · exact absurd h0 h
    all_goals rfl

/-- C13: let `u` be the struct `Update` hands to the store (the user itself when the
password is empty, the user with its password hashed otherwise).  When the store update
succeeds, `Update` returns no error and issues one `DEL`, on the key `GetByID` uses for
the user's id (the key built with `strconv.FormatUint` is the one built with
`fmt.Sprintf`), whatever the fields of the user; when the store update fails, `Update`
returns that error, the keyspace is untouched and no `DEL` is logged. -/
theorem C13_update_invalidates_key (d : Deps) (user u : User) (w : World)
    (hprep : (user.Password = "" ∧ u = user) ∨
      (user.Password ≠ "" ∧
        ∃ h, d.GenerateFromPassword user.Password = .ok h ∧ u = { user with Password := h })) :
    (∀ id, updateCacheKey id = getByIDCacheKey id) ∧
    ((UserRepositoryImpl.Update u w).1 = none →
      (UserServiceImpl.Update d user w).1 = none ∧
      (UserServiceImpl.Update d user w).2.2.redis
        = w.redis.del (getByIDCacheKey (UserServiceImpl.Update d user w).2.1.ID) ∧
      (UserServiceImpl.Update d user w).2.2.trace
        = w.trace ++ [.repoUpdate u,
            .redisDel (getByIDCacheKey (UserServiceImpl.Update d user w).2.1.ID)] ∧
      (user.ID ≠ 0 → (UserServiceImpl.Update d user w).2.1.ID = user.ID)) ∧
    (∀ e, (UserRepositoryImpl.Update u w).1 = some e →
      (UserServiceImpl.Update d user w).1 = some e ∧
      (UserServiceImpl.Update d user w).2.2.redis = w.redis ∧
      (UserServiceImpl.Update d user w).2.2.trace = w.trace ++ [.repoUpdate u]) := by
  have hU : UserServiceImpl.Update d user w =
      match (UserRepositoryImpl.Update u w).1 with
      | some e => (some e, (UserRepositoryImpl.Update u w).2.1,
          (UserRepositoryImpl.Update u w).2.2)
      | none => (none, (UserRepositoryImpl.Update u w).2.1,
          redisDel (updateCacheKey (UserRepositoryImpl.Update u w).2.1.ID)
            (UserRepositoryImpl.Update u w).2.2) := by
    rcases hprep with ⟨hp, hu⟩ | ⟨hp, h, hh, hu⟩
    · subst hu
      simp [UserServiceImpl.Update, hp]
    · subst hu
      simp [UserServiceImpl.Update, hp, hh]
  have huid : u.ID = user.ID := by
    rcases hprep with ⟨_, hu⟩ | ⟨_, h, _, hu⟩ <;> rw [hu]
  refine ⟨fun _ => rfl, ?_, ?_⟩
  · intro hok
    rw [hU, hok]
    refine ⟨rfl, ?_, ?_, ?_⟩
    · simp [redisDel, World.log, UserRepositoryImpl.Update, updateCacheKey_eq_getByIDCacheKey]
    · simp [redisDel, World.log, UserRepositoryImpl.Update, updateCacheKey_eq_getByIDCacheKey]
    · intro hid
      simp only [UserRepositoryImpl.Update]
      rw [gormSave_ID _ _ _ (by rw [huid]; exact hid), huid]
  · intro e he
    rw [hU, he]
    simp [World.log, UserRepositoryImpl.Update]

/-- C13 at concrete inputs: renaming `alice` (password re-hashed) deletes `user:1`; the
same call on a broken connection returns the store's error and deletes nothing. -/
theorem C13_update_invalidates_key_witness :
    ((UserServiceImpl.Update exampleDeps { alice with ID := 1, Name := "A2" }
        (worldWithAlice 1)).1 = none ∧
      (UserServiceImpl.Update exampleDeps { alice with ID := 1, Name := "A2" }
        (worldWithAlice 1)).2.2.trace
        = [.repoUpdate { alice with ID := 1, Name := "A2", Password := "h:secret1" },
           .redisDel "user:1"]) ∧
    ((UserServiceImpl.Update exampleDeps { alice with ID := 1, Name := "A2" }
        brokenWorld).1 = some (.other "connection refused") ∧
      (UserServiceImpl.Update exampleDeps { alice with ID := 1, Name := "A2" }
        brokenWorld).2.2.trace
        = [.repoUpdate { alice with ID := 1, Name := "A2", Password := "h:secret1" }]) := by
  have h1 := (C13_update_invalidates_key exampleDeps { alice with ID := 1, Name := "A2" }
    { alice with ID := 1, Name := "A2", Password := "h:secret1" } (worldWithAlice 1)
    (Or.inr ⟨by decide, "h:secret1", by decide, by decide⟩)).2.1 (by decide)
  have h2 := (C13_update_invalidates_key exampleDeps { alice with ID := 1, Name := "A2" }
    { alice with ID := 1, Name := "A2", Password := "h:secret1" } brokenWorld
    (Or.inr ⟨by decide, "h:secret1", by decide, by decide⟩)).2.2
    (.other "connection refused") (by decide)
  refine ⟨⟨h1.1, ?_⟩, ⟨h2.1, ?_⟩⟩
  · rw [h1.2.2.1, h1.2.2.2 (by decide)]
    decide
  · rw [h2.2.2]
    decide

/-! ## C14: the paging arguments of `ListUsers` -/

/-- The value of `Atoi` is a Go `int`. -/
theorem Atoi_range (s : String) : -(2 ^ 63) ≤ Atoi s ∧ Atoi s < 2 ^ 63 := by
  have key : ∀ (neg : Prop) [Decidable neg] (r : ParseResult),
      -(2 ^ 63 : Int) ≤ (match r with
        | .syntaxErr => (0 : Int)
        | .rangeErr => if neg then -(2 ^ 63) else 2 ^ 63 - 1
        | .ok n =>
          if neg then (if 2 ^ 63 < n then -(2 ^ 63) else -(n : Int))
          else (if 2 ^ 63 ≤ n then 2 ^ 63 - 1 else (n : Int))) ∧
      (match r with
        | .syntaxErr => (0 : Int)
        | .rangeErr => if neg then -(2 ^ 63) else 2 ^ 63 - 1
        | .ok n =>
          if neg then (if 2 ^ 63 < n then -(2 ^ 63) else -(n : Int))
          else (if 2 ^ 63 ≤ n then 2 ^ 63 - 1 else (n : Int))) < 2 ^ 63 := by
    intro neg _ r
    cases r with
    | ok n => dsimp only; split_ifs <;> omega
    | syntaxErr => norm_num
    | rangeErr => dsimp only; split_ifs <;> norm_num
  unfold Atoi
  split
  · norm_num
  · rename_i c cs _
    dsimp only
    generalize (if c = '-' ∨ c = '+' then cs else c :: cs) = digits
    by_cases hd : digits = []
    · simp [hd]
    · simp only [hd, if_false]
      exact key (c = '-') _

/-- A product of a Go `int` by a Go `int` that does not overflow is not changed by the
reduction to 64 bits. -/
theorem wrapInt64_of_range (x : Int) (h0 : -(2 ^ 63) ≤ x) (h1 : x < 2 ^ 63) :
    wrapInt64 x = x := by
  unfold wrapInt64
  omega

/-- C14 (counterexample): for the query `page=4611686018427387905&limit=2` both values
parse as they are written and pass the clamps, the exact product `(page - 1) * limit` is
`2^63`, and the offset handed to `List` is `-2^63`: negative. -/
theorem C14_counterexample :
    Atoi "4611686018427387905" = 4611686018427387905 ∧
    Atoi "2" = 2 ∧
    (specPage 4611686018427387905 - 1) * specLimit 2 = 9223372036854775808 ∧
    (UserController.ListUsers recordingService "4611686018427387905" "2" []).2
      = [(-9223372036854775808, 2)] ∧
    ¬ (0 : Int) ≤ -9223372036854775808 := by
  decide

/-- C14 (amended): for every pair of Go `int` values of `page` and `limit`, `ListUsers`
calls `List` once, with a limit that is `limit'` and at least 1 and with the offset
`(page' - 1) * limit'` reduced to 64 bits; when that product is below `2^63` the offset
is the product itself and is at least 0. -/
theorem C14_list_paging (page limit : Int)
    (hp : -(2 ^ 63) ≤ page ∧ page < 2 ^ 63) (hl : -(2 ^ 63) ≤ limit ∧ limit < 2 ^ 63) :
    (UserController.listUsersParsed recordingService page limit []).2
      = [(wrapInt64 ((specPage page - 1) * specLimit limit), specLimit limit)] ∧
    1 ≤ specLimit limit ∧
    ((specPage page - 1) * specLimit limit < 2 ^ 63 →
      wrapInt64 ((specPage page - 1) * specLimit limit)
        = (specPage page - 1) * specLimit limit ∧
      0 ≤ wrapInt64 ((specPage page - 1) * specLimit limit)) := by
  have hpage : (if page < 1 then 1 else page) = specPage page := by
    unfold specPage
    split_ifs <;> omega
  have hlimit : (if limit < 1 then 10 else limit) = specLimit limit := by
    unfold specLimit
    split_ifs <;> omega
  have hp1 : 1 ≤ specPage page ∧ specPage page < 2 ^ 63 := by
    unfold specPage
    split_ifs <;> omega
  have hl1 : 1 ≤ specLimit limit := by
    unfold specLimit
    split_ifs <;> omega
  have hnn : 0 ≤ (specPage page - 1) * specLimit limit :=
    mul_nonneg (by omega) (by omega)
  refine ⟨?_, hl1, ?_⟩
  · simp only [UserController.listUsersParsed, recordingService, hpage, hlimit,
      List.nil_append]
    rw [wrapInt64_of_range (specPage page - 1) (by omega) (by omega)]
  · intro hlt
    have := wrapInt64_of_range _ (by omega) hlt
    exact ⟨this, by rw [this]; exact hnn⟩

/-- C14 (amended) at `page=3&limit=20` and at `page=-7&limit=0`: the calls are
`List(40, 20)` and `List(0, 10)`. -/
theorem C14_list_paging_witness :
    (UserController.listUsersParsed recordingService 3 20 []).2 = [(40, 20)] ∧
    (UserController.listUsersParsed recordingService (-7) 0 []).2 = [(0, 10)] := by
  have h1 := C14_list_paging 3 20 (by decide) (by decide)
  have h2 := C14_list_paging (-7) 0 (by decide) (by decide)
  refine ⟨?_, ?_⟩
  · rw [h1.1, (h1.2.2 (by decide)).1]
    decide
  · rw [h2.1, (h2.2.2 (by decide)).1]
    decide

end GoProductionLevel
